import Mathlib

/-!
Shallow embedding of the DRAIN provider's voucher validation and channel
claim engine (`drain.ts`, `storage.ts` of the hs58 providers; the file is
duplicated verbatim across the five deployments and embedded once).

Modelling conventions:
* `bigint` / `uint256` quantities (amounts, nonces, deposits, costs) are `Nat`;
  hex identifiers (channel ids, addresses, signatures, tx hashes) are `Nat`,
  with the zero address encoded as `0`.
* JS `Date.now()` readings are explicit `now` parameters.
* The two fallible external calls inside `validateVoucher`'s `try` block —
  the contract read and `verifyTypedData` — are passed as `Except JsError _`
  parameters; the surrounding `catch` maps a thrown value to
  `error instanceof Error ? error.message : 'validation_error'`.
* On-chain `claim` writes are an oracle `Nat → Nat → Nat → Nat → Option Nat`
  (`none` models a throw: revert or RPC error).
* JS `Map` / object maps are insertion-ordered association lists.
-/

namespace Drain

/-- A thrown JS value: an `Error` instance carrying a message, or anything
else (string, number, ...). -/
inductive JsError where
  | errorObj (message : String)
  | other
deriving DecidableEq, Repr

/-- The catch clause's error mapping in `validateVoucher`:
`error instanceof Error ? error.message : 'validation_error'`. -/
def jsErrorMessage : JsError → String
  | .errorObj m => m
  | .other => "validation_error"

/-- `VoucherHeader` (types.ts): parsed X-DRAIN-Voucher header, with the
decimal-string `amount`/`nonce` already converted by `BigInt(...)`. -/
structure VoucherHeader where
  channelId : Nat
  amount : Nat
  nonce : Nat
  signature : Nat
deriving DecidableEq, Repr

/-- `StoredVoucher` (types.ts). -/
structure StoredVoucher where
  channelId : Nat
  amount : Nat
  nonce : Nat
  signature : Nat
  consumer : Nat
  receivedAt : Nat
  claimed : Bool
  claimedAt : Option Nat := none
  claimTxHash : Option Nat := none
deriving DecidableEq, Repr

/-- `ChannelState` (types.ts). `expiry = 0` stands for the JS-falsy unset
expiry of legacy records. -/
structure ChannelState where
  channelId : Nat
  consumer : Nat
  deposit : Nat
  totalCharged : Nat
  expiry : Nat
  lastVoucher : Option StoredVoucher := none
  createdAt : Nat
  lastActivityAt : Nat
deriving DecidableEq, Repr

/-- Result of the on-chain `getChannel` read. -/
structure ChainChannel where
  consumer : Nat
  provider : Nat
  deposit : Nat
  expiry : Nat
deriving DecidableEq, Repr

/-- Return value of `DrainService.validateVoucher`. -/
structure ValidateResult where
  valid : Bool
  error : Option String := none
  channel : Option ChannelState := none
  newTotal : Option Nat := none
deriving DecidableEq, Repr

/-- Lookup in an insertion-ordered association list (JS object / `Map.get`). -/
def alookup {κ α : Type} [DecidableEq κ] : List (κ × α) → κ → Option α
  | [], _ => none
  | e :: rest, k => if e.1 = k then some e.2 else alookup rest k

/-- `Map.set` / JS object property assignment: update in place when the key is
present, append at the end otherwise. -/
def aset {κ α : Type} [DecidableEq κ] : List (κ × α) → κ → α → List (κ × α)
  | [], k, x => [(k, x)]
  | e :: rest, k, x => if e.1 = k then (k, x) :: rest else e :: aset rest k x

/-- `StorageData` (storage.ts). `totalEarned`/`totalClaimed` are stored as
decimal strings on disk; their numeric values are modelled. -/
structure StorageData where
  vouchers : List StoredVoucher
  channels : List (Nat × ChannelState)
  totalEarned : Nat
  totalClaimed : Nat
deriving DecidableEq, Repr

/-- The fresh store produced by `load()` when no file exists (or when the
file fails to parse): empty lists and `totalEarned = totalClaimed = '0'`. -/
def emptyStorage : StorageData :=
  { vouchers := [], channels := [], totalEarned := 0, totalClaimed := 0 }

namespace VoucherStorage

/-- `VoucherStorage.storeVoucher`: `this.data.vouchers.push(voucher)`. -/
def storeVoucher (d : StorageData) (v : StoredVoucher) : StorageData :=
  { d with vouchers := d.vouchers ++ [v] }

/-- `VoucherStorage.getChannel`: `this.data.channels[channelId] ?? null`. -/
def getChannel (d : StorageData) (channelId : Nat) : Option ChannelState :=
  alookup d.channels channelId

/-- `VoucherStorage.updateChannel`: `this.data.channels[channelId] = state`. -/
def updateChannel (d : StorageData) (channelId : Nat) (state : ChannelState) :
    StorageData :=
  { d with channels := aset d.channels channelId state }

/-- `VoucherStorage.getUnclaimedVouchers`. -/
def getUnclaimedVouchers (d : StorageData) : List StoredVoucher :=
  d.vouchers.filter fun v => !v.claimed

/-- `VoucherStorage.getHighestVoucherPerChannel`: scan all vouchers, skip
claimed ones, and keep per channel the first voucher of strictly maximal
amount (`voucher.amount > existing.amount` replaces). -/
def getHighestVoucherPerChannel (d : StorageData) : List (Nat × StoredVoucher) :=
  d.vouchers.foldl
    (fun highest v =>
      if v.claimed then highest
      else
        match alookup highest v.channelId with
        | none => highest ++ [(v.channelId, v)]
        | some existing =>
            if existing.amount < v.amount then aset highest v.channelId v
            else highest)
    []

/-- Loop body of `VoucherStorage.markClaimed`: stamp one voucher if it
belongs to the channel and is still unclaimed. -/
def markVoucher (channelId txHash now : Nat) (v : StoredVoucher) : StoredVoucher :=
  if v.channelId = channelId ∧ v.claimed = false then
    { v with claimed := true, claimedAt := some now, claimTxHash := some txHash }
  else v

/-- `VoucherStorage.markClaimed`: flip `claimed` and stamp
`claimedAt`/`claimTxHash` on every unclaimed voucher of the channel. -/
def markClaimed (d : StorageData) (channelId txHash now : Nat) : StorageData :=
  { d with vouchers := d.vouchers.map (markVoucher channelId txHash now) }

/-- `VoucherStorage.getTotalUnclaimed`. -/
def getTotalUnclaimed (d : StorageData) : Nat :=
  ((getHighestVoucherPerChannel d).map fun e => e.2.amount).sum

/-- Return type of `VoucherStorage.getStats`. -/
structure Stats where
  totalVouchers : Nat
  unclaimedVouchers : Nat
  activeChannels : Nat
  totalEarned : Nat
deriving DecidableEq, Repr

/-- `VoucherStorage.getStats`. -/
def getStats (d : StorageData) : Stats :=
  { totalVouchers := d.vouchers.length,
    unclaimedVouchers := (d.vouchers.filter fun v => !v.claimed).length,
    activeChannels := d.channels.length,
    totalEarned := d.totalEarned }

end VoucherStorage

namespace DrainService

/-- Step 4 of `validateVoucher`: load the local channel state, lazily creating
it from the on-chain read, and backfilling a falsy (`0`) `expiry` on legacy
records. -/
def loadChannelState (channelData : ChainChannel) (stored : Option ChannelState)
    (channelId now : Nat) : ChannelState :=
  match stored with
  | none =>
      { channelId := channelId, consumer := channelData.consumer,
        deposit := channelData.deposit, totalCharged := 0,
        expiry := channelData.expiry, lastVoucher := none,
        createdAt := now, lastActivityAt := now }
  | some cs => if cs.expiry = 0 then { cs with expiry := channelData.expiry } else cs

/-- Step 7's guard: `channelState.lastVoucher && nonce <= lastVoucher.nonce`. -/
def nonceTooLow : Option StoredVoucher → Nat → Bool
  | some lastV, nonce => nonce ≤ lastV.nonce
  | none, _ => false

/-- `DrainService.validateVoucher`. `self` is the provider's own address
(`this.account.address`); `chainRead` is the outcome of the contract
`getChannel` read and `sigResult` the outcome of `verifyTypedData`, either of
which may throw (`Except.error`); the `try`/`catch` maps a thrown value
through `jsErrorMessage` at its throw point, which is where control leaves
the `try` block. -/
def validateVoucher (self : Nat) (chainRead : Except JsError ChainChannel)
    (sigResult : Except JsError Bool) (stored : Option ChannelState) (now : Nat)
    (voucher : VoucherHeader) (requiredAmount : Nat) : ValidateResult :=
  match chainRead with
  | .error e => { valid := false, error := some (jsErrorMessage e) }
  | .ok channelData =>
    if channelData.consumer = 0 then
      { valid := false, error := some "channel_not_found" }
    else if channelData.provider ≠ self then
      { valid := false, error := some "wrong_provider" }
    else
      let channelState := loadChannelState channelData stored voucher.channelId now
      if voucher.amount < channelState.totalCharged + requiredAmount then
        { valid := false, error := some "insufficient_funds",
          channel := some channelState }
      else if channelData.deposit < voucher.amount then
        { valid := false, error := some "exceeds_deposit",
          channel := some channelState }
      else if nonceTooLow channelState.lastVoucher voucher.nonce then
        { valid := false, error := some "invalid_nonce",
          channel := some channelState }
      else
        match sigResult with
        | .error e => { valid := false, error := some (jsErrorMessage e) }
        | .ok isValid =>
          if !isValid then { valid := false, error := some "invalid_signature" }
          else { valid := true, channel := some channelState,
                 newTotal := some voucher.amount }

/-- `DrainService.storeVoucher`: build the `StoredVoucher`, bump
`totalCharged` by `cost`, replace `lastVoucher`, touch `lastActivityAt`, then
persist voucher and channel. -/
def storeVoucher (d : StorageData) (voucher : VoucherHeader)
    (channelState : ChannelState) (cost now : Nat) : StorageData :=
  let storedV : StoredVoucher :=
    { channelId := voucher.channelId, amount := voucher.amount,
      nonce := voucher.nonce, signature := voucher.signature,
      consumer := channelState.consumer, receivedAt := now, claimed := false }
  let updated : ChannelState :=
    { channelState with
        totalCharged := channelState.totalCharged + cost
        lastVoucher := some storedV
        lastActivityAt := now }
  VoucherStorage.updateChannel (VoucherStorage.storeVoucher d storedV)
    voucher.channelId updated

/-- Result of one claim run (`claimPayments` / `claimExpiring`): the returned
transaction hashes, the storage after the run, and a ghost trace of the
on-chain claim calls that were issued (channel id and claimed voucher). -/
structure ClaimRun where
  txHashes : List Nat
  storage : StorageData
  attempted : List (Nat × StoredVoucher)
deriving DecidableEq, Repr

/-- Body of the claim loops' `try`/`catch`: call `claim` on chain; on success
(`some hash`) mark the channel claimed and record the hash; on a throw
(`none`) log and continue with the next channel. `nowMs` is the `Date.now()`
reading used for the `claimedAt` stamps. -/
def claimStep (chain : Nat → Nat → Nat → Nat → Option Nat) (nowMs : Nat)
    (acc : DrainService.ClaimRun) (channelId : Nat) (voucher : StoredVoucher) : ClaimRun :=
  match chain voucher.channelId voucher.amount voucher.nonce voucher.signature with
  | some h =>
      { txHashes := acc.txHashes ++ [h]
        storage := VoucherStorage.markClaimed acc.storage channelId h nowMs
        attempted := acc.attempted ++ [(channelId, voucher)] }
  | none => { acc with attempted := acc.attempted ++ [(channelId, voucher)] }

/-- One iteration of the `claimPayments` loop: skip a channel when
`!forceAll && voucher.amount < claimThreshold`, otherwise attempt the claim. -/
def paymentsStep (chain : Nat → Nat → Nat → Nat → Option Nat)
    (claimThreshold : Nat) (forceAll : Bool) (nowMs : Nat) (acc : DrainService.ClaimRun)
    (e : Nat × StoredVoucher) : ClaimRun :=
  if forceAll = false ∧ e.2.amount < claimThreshold then acc
  else claimStep chain nowMs acc e.1 e.2

/-- `DrainService.claimPayments`: iterate the highest unclaimed voucher per
channel; skip a channel when `!forceAll && voucher.amount < claimThreshold`;
otherwise attempt the on-chain claim with per-channel failure isolation (a
throwing claim is caught, logged and the loop continues). -/
def claimPayments (chain : Nat → Nat → Nat → Nat → Option Nat)
    (claimThreshold : Nat) (forceAll : Bool) (nowMs : Nat) (d : StorageData) :
    ClaimRun :=
  (VoucherStorage.getHighestVoucherPerChannel d).foldl
    (paymentsStep chain claimThreshold forceAll nowMs)
    { txHashes := [], storage := d, attempted := [] }

/-- One iteration of the `claimExpiring` loop: skip when the channel is
missing locally, its `expiry` is falsy (`0`), `timeLeft = expiry - now`
exceeds `bufferSeconds`, or the voucher amount is zero; otherwise attempt
the claim. -/
def expiringStep (chain : Nat → Nat → Nat → Nat → Option Nat)
    (bufferSeconds now : Int) (nowMs : Nat) (acc : DrainService.ClaimRun)
    (e : Nat × StoredVoucher) : ClaimRun :=
  match VoucherStorage.getChannel acc.storage e.1 with
  | none => acc
  | some channel =>
      if channel.expiry = 0 then acc
      else if bufferSeconds < (channel.expiry : Int) - now then acc
      else if e.2.amount = 0 then acc
      else claimStep chain nowMs acc e.1 e.2

/-- `DrainService.claimExpiring`: iterate the highest unclaimed voucher per
channel and attempt the claim for every channel expiring within
`bufferSeconds`, regardless of the claim threshold. `now` is
`floor(Date.now() / 1000)`. -/
def claimExpiring (chain : Nat → Nat → Nat → Nat → Option Nat)
    (bufferSeconds now : Int) (nowMs : Nat) (d : StorageData) : ClaimRun :=
  (VoucherStorage.getHighestVoucherPerChannel d).foldl
    (expiringStep chain bufferSeconds now nowMs)
    { txHashes := [], storage := d, attempted := [] }

end DrainService

/-! ### JSON values and `parseVoucherHeader` -/

/-- A parsed JSON value (`JSON.parse` output). -/
inductive Json where
  | str (s : String)
  | num (n : Int)
  | bool (b : Bool)
  | null
  | arr (elems : List Json)
  | obj (fields : List (String × Json))
deriving Repr

/-- JS property access `parsed.name`: `none` models `undefined` (absent field
or non-object receiver). -/
def getField : Json → String → Option Json
  | .obj fields, name => alookup fields name
  | _, _ => none

/-- JS truthiness of a possibly-undefined JSON value: `undefined`, `null`,
`false`, `0` and the empty string are falsy. -/
def jsTruthy : Option Json → Bool
  | none => false
  | some .null => false
  | some (.bool b) => b
  | some (.num n) => n ≠ 0
  | some (.str s) => s ≠ ""
  | some (.arr _) => true
  | some (.obj _) => true

/-- The object `parseVoucherHeader` returns: the four field values as read
from the parsed JSON (the cast to `Hash`/`Hex` is a type assertion only). -/
structure RawVoucherHeader where
  channelId : Json
  amount : Json
  nonce : Json
  signature : Json
deriving Repr

/-- `DrainService.parseVoucherHeader`: the `JSON.parse` outcome is the
parameter (`none` models a parse exception, caught and mapped to `null`);
the four fields must be truthy, otherwise `null` is returned. -/
def parseVoucherHeader (parsed : Option Json) : Option RawVoucherHeader :=
  match parsed with
  | none => none
  | some p =>
      if jsTruthy (getField p "channelId") = false ∨
         jsTruthy (getField p "amount") = false ∨
         jsTruthy (getField p "nonce") = false ∨
         jsTruthy (getField p "signature") = false then
        none
      else
        some { channelId := (getField p "channelId").getD .null
               amount := (getField p "amount").getD .null
               nonce := (getField p "nonce").getD .null
               signature := (getField p "signature").getD .null }

/-! ### Mutating storage operations and the two-phase request flow -/

/-- The storage-mutating operations of `VoucherStorage`. -/
inductive StorageOp where
  | store (v : StoredVoucher)
  | updateChannel (channelId : Nat) (state : ChannelState)
  | markClaimed (channelId txHash now : Nat)
deriving Repr

/-- Apply one storage operation. -/
def applyOp (d : StorageData) : StorageOp → StorageData
  | .store v => VoucherStorage.storeVoucher d v
  | .updateChannel cid st => VoucherStorage.updateChannel d cid st
  | .markClaimed cid tx now => VoucherStorage.markClaimed d cid tx now

/-- One request round of the two-phase protocol, as the servers drive it
(index.ts): `validateVoucher(voucher, cost)` against the current storage, and
on success commit via `DrainService.storeVoucher` with the channel snapshot
the validation returned and the same `cost`. -/
structure Request where
  voucher : VoucherHeader
  sigOk : Bool
  cost : Nat
  now : Nat
deriving Repr

/-- Process one request: the final (actual-cost) validation followed, only on
success, by the `storeVoucher` commit. Returns the new storage and the
accepted voucher event (`none` when rejected). `chain` maps a channel id to
its immutable on-chain record. -/
def processRequest (self : Nat) (chain : Nat → ChainChannel) (d : StorageData)
    (r : Request) : StorageData × Option (Nat × VoucherHeader) :=
  let res := DrainService.validateVoucher self (.ok (chain r.voucher.channelId))
    (.ok r.sigOk) (VoucherStorage.getChannel d r.voucher.channelId) r.now
    r.voucher r.cost
  if res.valid then
    match res.channel with
    | some cs => (DrainService.storeVoucher d r.voucher cs r.cost r.now,
                  some (r.voucher.channelId, r.voucher))
    | none => (d, none)
  else (d, none)

/-- Run a sequence of requests, accumulating the trace of accepted vouchers
(channel id and voucher, in acceptance order). -/
def runRequests (self : Nat) (chain : Nat → ChainChannel)
    (start : StorageData × List (Nat × VoucherHeader)) (reqs : List Request) :
    StorageData × List (Nat × VoucherHeader) :=
  reqs.foldl
    (fun acc r =>
      match processRequest self chain acc.1 r with
      | (d, some ev) => (d, acc.2 ++ [ev])
      | (d, none) => (d, acc.2))
    start

/-- The nonces of the accepted vouchers of one channel, in acceptance order. -/
def traceNonces (tr : List (Nat × VoucherHeader)) (cid : Nat) : List Nat :=
  (tr.filter fun e => e.1 = cid).map fun e => e.2.nonce

/-! ### Reference (spec-side) definitions -/

/-- Spec-side, from the spec's algorithm: the ordered list of rejection
checks of `validate`, each a guard paired with its reason. The effective
channel is the loaded/lazily created one. -/
def specCheckList (self : Nat) (channelData : ChainChannel)
    (channelState : ChannelState) (sigOk : Bool) (voucher : VoucherHeader)
    (requiredAmount : Nat) : List (Bool × String) :=
  [(channelData.consumer = 0, "channel_not_found"),
   (channelData.provider ≠ self, "wrong_provider"),
   (voucher.amount < channelState.totalCharged + requiredAmount,
      "insufficient_funds"),
   (channelData.deposit < voucher.amount, "exceeds_deposit"),
   (DrainService.nonceTooLow channelState.lastVoucher voucher.nonce,
      "invalid_nonce"),
   (sigOk = false, "invalid_signature")]

/-- Spec-side: reason of the first failing check, `none` when all pass. -/
def firstFailing : List (Bool × String) → Option String
  | [] => none
  | (c, e) :: rest => if c then some e else firstFailing rest

/-- Spec-side: the unclaimed vouchers of a channel within a voucher list, in
list order. -/
def unclaimedIn (vs : List StoredVoucher) (cid : Nat) : List StoredVoucher :=
  vs.filter fun v => v.claimed = false ∧ v.channelId = cid

/-- Spec-side: the unclaimed vouchers recorded for a channel, in storage
order. -/
def unclaimedFor (d : StorageData) (cid : Nat) : List StoredVoucher :=
  unclaimedIn d.vouchers cid

/-- Spec-side: maximum amount in a list of vouchers (0 when empty). -/
def maxAmount (l : List StoredVoucher) : Nat :=
  l.foldr (fun v m => max v.amount m) 0

/-- Spec-side: the first voucher in list order whose amount attains the
maximum. -/
def firstMaxVoucher (l : List StoredVoucher) : Option StoredVoucher :=
  l.find? fun v => v.amount = maxAmount l

/-- The StoredVoucher that `DrainService.storeVoucher` builds. -/
def mkStoredVoucher (voucher : VoucherHeader) (cs : ChannelState) (now : Nat) :
    StoredVoucher :=
  { channelId := voucher.channelId, amount := voucher.amount,
    nonce := voucher.nonce, signature := voucher.signature,
    consumer := cs.consumer, receivedAt := now, claimed := false }

/-- The updated ChannelState that `DrainService.storeVoucher` persists. -/
def commitChannel (voucher : VoucherHeader) (cs : ChannelState) (cost now : Nat) :
    ChannelState :=
  { cs with
      totalCharged := cs.totalCharged + cost
      lastVoucher := some (mkStoredVoucher voucher cs now)
      lastActivityAt := now }

/-- The local channel records agree with the chain on the deposit and stay
within it. -/
def ChannelInv (chain : Nat → ChainChannel) (d : StorageData) : Prop :=
  ∀ e ∈ d.channels, e.2.deposit = (chain e.1).deposit ∧
    e.2.totalCharged ≤ e.2.deposit

/-- Invariant tying the accepted-voucher trace to the stored `lastVoucher`:
per channel the accepted nonces are strictly increasing, and every accepted
nonce is bounded by the channel's recorded `lastVoucher.nonce`. -/
def NonceInv (d : StorageData) (tr : List (Nat × VoucherHeader)) : Prop :=
  ∀ cid, List.Chain' (· < ·) (traceNonces tr cid) ∧
    ∀ n ∈ traceNonces tr cid, ∃ cs lv,
      VoucherStorage.getChannel d cid = some cs ∧ cs.lastVoucher = some lv ∧
      n ≤ lv.nonce

/-- Loop body of `getHighestVoucherPerChannel`. -/
def highestStep (highest : List (Nat × StoredVoucher)) (v : StoredVoucher) :
    List (Nat × StoredVoucher) :=
  if v.claimed then highest
  else
    match alookup highest v.channelId with
    | none => highest ++ [(v.channelId, v)]
    | some existing =>
        if existing.amount < v.amount then aset highest v.channelId v
        else highest

/-- Spec-side eligibility of `claimExpiring`, read against a fixed storage
snapshot: the channel exists locally with a set (nonzero) expiry,
`expiry - now ≤ bufferSeconds`, and the candidate voucher's amount is
positive. -/
def expiringEligible (d : StorageData) (bufferSeconds now : Int)
    (e : Nat × StoredVoucher) : Bool :=
  match VoucherStorage.getChannel d e.1 with
  | none => false
  | some channel =>
      decide (channel.expiry ≠ 0 ∧ (channel.expiry : Int) - now ≤ bufferSeconds ∧
        0 < e.2.amount)

/-- Spec-side eligibility of `claimPayments`: forced, or at/above the claim
threshold. -/
def paymentsEligible (claimThreshold : Nat) (forceAll : Bool)
    (e : Nat × StoredVoucher) : Bool :=
  !(decide (forceAll = false ∧ e.2.amount < claimThreshold))

/-! ### Association-list lemmas -/

theorem alookup_mem {κ α : Type} [DecidableEq κ] {l : List (κ × α)} {k : κ} {x : α}
    (h : alookup l k = some x) : (k, x) ∈ l := by
  induction l with
  | nil => simp [alookup] at h
  | cons e rest ih =>
      by_cases he : e.1 = k
      · simp [alookup, he] at h
        subst he
        simp [← h]
      · simp [alookup, he] at h
        exact List.mem_cons_of_mem _ (ih h)

theorem alookup_aset_self {κ α : Type} [DecidableEq κ] (l : List (κ × α)) (k : κ) (x : α) :
    alookup (aset l k x) k = some x := by
  induction l with
  | nil => simp [aset, alookup]
  | cons e rest ih =>
      by_cases he : e.1 = k
      · simp [aset, he, alookup]
      · simp [aset, he, alookup, ih]

theorem alookup_aset_ne {κ α : Type} [DecidableEq κ] (l : List (κ × α)) (k k' : κ) (x : α)
    (h : k' ≠ k) : alookup (aset l k x) k' = alookup l k' := by
  induction l with
  | nil => simp [aset, alookup, Ne.symm h]
  | cons e rest ih =>
      by_cases he : e.1 = k
      · subst he
        simp [aset, alookup, Ne.symm h]
      · simp only [aset, if_neg he]
        by_cases he' : e.1 = k'
        · simp [alookup, he']
        · simp [alookup, he', ih]

theorem mem_aset {κ α : Type} [DecidableEq κ] {l : List (κ × α)} {k : κ} {x : α} {e : κ × α}
    (h : e ∈ aset l k x) : e = (k, x) ∨ e ∈ l := by
  induction l with
  | nil => simpa [aset] using h
  | cons e0 rest ih =>
      by_cases he : e0.1 = k
      · simp only [aset, if_pos he] at h
        rcases List.mem_cons.mp h with h | h
        · exact Or.inl h
        · exact Or.inr (List.mem_cons_of_mem _ h)
      · simp only [aset, if_neg he] at h
        rcases List.mem_cons.mp h with h | h
        · exact Or.inr (h ▸ List.mem_cons_self _ _)
        · rcases ih h with h | h
          · exact Or.inl h
          · exact Or.inr (List.mem_cons_of_mem _ h)

theorem alookup_eq_none {κ α : Type} [DecidableEq κ] {l : List (κ × α)} {k : κ}
    (h : alookup l k = none) : k ∉ l.map Prod.fst := by
  induction l with
  | nil => simp
  | cons e rest ih =>
      by_cases he : e.1 = k
      · simp [alookup, he] at h
      · simp only [alookup, if_neg he] at h
        simp [ih h, Ne.symm he]

theorem keys_aset_of_mem {κ α : Type} [DecidableEq κ] {l : List (κ × α)} {k : κ} (x : α)
    (h : k ∈ l.map Prod.fst) : (aset l k x).map Prod.fst = l.map Prod.fst := by
  induction l with
  | nil => simp at h
  | cons e rest ih =>
      by_cases he : e.1 = k
      · simp [aset, he]
      · simp only [List.map_cons, List.mem_cons] at h
        rcases h with h | h
        · exact absurd h.symm he
        · simp [aset, if_neg he, ih h]

theorem alookup_of_keys_nodup {κ α : Type} [DecidableEq κ] {l : List (κ × α)} {e : κ × α}
    (hnd : (l.map Prod.fst).Nodup) (h : e ∈ l) : alookup l e.1 = some e.2 := by
  induction l with
  | nil => simp at h
  | cons e0 rest ih =>
      rcases List.mem_cons.mp h with h | h
      · subst h
        simp [alookup]
      · have hne : e0.1 ≠ e.1 := by
          intro hk
          have : e0.1 ∈ rest.map Prod.fst := hk ▸ List.mem_map_of_mem Prod.fst h
          exact (List.nodup_cons.mp hnd).1 this
        simp [alookup, hne, ih (List.nodup_cons.mp hnd).2 h]

/-! ### markClaimed helper lemmas -/

theorem markClaimed_channels (d : StorageData) (cid tx now : Nat) :
    (VoucherStorage.markClaimed d cid tx now).channels = d.channels := rfl

theorem markClaimed_totalEarned (d : StorageData) (cid tx now : Nat) :
    (VoucherStorage.markClaimed d cid tx now).totalEarned = d.totalEarned := rfl

/-! ### C10 : totalEarned is never updated -/

theorem applyOp_totalEarned (d : StorageData) (op : StorageOp) :
    (applyOp d op).totalEarned = d.totalEarned := by
  cases op <;> rfl

theorem foldl_applyOp_totalEarned (ops : List StorageOp) (d : StorageData) :
    (ops.foldl applyOp d).totalEarned = d.totalEarned := by
  induction ops generalizing d with
  | nil => rfl
  | cons op rest ih => rw [List.foldl_cons, ih, applyOp_totalEarned]

/-- C10: starting from an empty store, no sequence of the mutating storage
operations (storeVoucher, updateChannel, markClaimed) ever updates
`totalEarned`, so `getStats().totalEarned` is always 0. -/
theorem C10_getStats_totalEarned_always_zero (ops : List StorageOp) :
    (VoucherStorage.getStats (ops.foldl applyOp emptyStorage)).totalEarned = 0 := by
  show (ops.foldl applyOp emptyStorage).totalEarned = 0
  rw [foldl_applyOp_totalEarned]
  rfl

/-! ### C9 : parseVoucherHeader -/

/-- C9 counterexample: a JSON object carrying the four required fields plus
an additional fifth field is accepted by `parseVoucherHeader`, while the
claim demands that an object with any additional field be a format error. -/
theorem C9_counterexample_extra_field_accepted :
    (parseVoucherHeader (some (.obj [("channelId", .str "0xabc"),
      ("amount", .str "100"), ("nonce", .str "1"), ("signature", .str "0xdef"),
      ("extra", .num 1)]))).isSome = true := by
  decide

/-- C9 (amended): `parseVoucherHeader` returns a voucher exactly when the
input parses as JSON and its `channelId`, `amount`, `nonce` and `signature`
members are all present and truthy; additional members are ignored, and a
required member with a falsy value (0, empty string, null, false) is
rejected. -/
theorem C9_amended_parse_requires_truthy_fields (parsed : Option Json) :
    (parseVoucherHeader parsed).isSome =
      match parsed with
      | none => false
      | some p =>
          jsTruthy (getField p "channelId") && jsTruthy (getField p "amount") &&
          jsTruthy (getField p "nonce") && jsTruthy (getField p "signature") := by
  cases parsed with
  | none => rfl
  | some p =>
      simp only [parseVoucherHeader]
      split_ifs with h
      · rcases h with h | h | h | h <;> simp [h]
      · push_neg at h
        obtain ⟨h1, h2, h3, h4⟩ := h
        simp only [Bool.not_eq_false] at h1 h2 h3 h4
        simp [h1, h2, h3, h4]

/-! ### C8 : lower-level throws are caught -/

/-- C8 counterexample: when the chain read throws `Error('network timeout')`,
`validateVoucher` returns the error's message, not the string
`validation_error`. -/
theorem C8_counterexample_error_message_passed_through :
    (DrainService.validateVoucher 5 (.error (.errorObj "network timeout"))
      (.ok true) none 0 ⟨77, 100000, 1, 123⟩ 50000).error
        = some "network timeout" ∧
    "network timeout" ≠ "validation_error" := by
  exact ⟨rfl, by decide⟩

/-- C8 (amended): a throw from a lower-level operation is caught and mapped
to valid=false with error equal to the thrown Error's message when the value
is an Error instance, and to the string validation_error only for a
non-Error throw: unconditionally so for a chain-read throw, and for a
signature-library throw whenever the signature check is reached. -/
theorem C8_amended_throws_caught (self : Nat) (e : JsError)
    (sigResult : Except JsError Bool) (channelData : ChainChannel)
    (stored : Option ChannelState) (now : Nat) (voucher : VoucherHeader)
    (requiredAmount : Nat) :
    DrainService.validateVoucher self (.error e) sigResult stored now voucher
      requiredAmount = { valid := false, error := some (jsErrorMessage e) } ∧
    (channelData.consumer ≠ 0 → channelData.provider = self →
     (DrainService.loadChannelState channelData stored voucher.channelId
        now).totalCharged + requiredAmount ≤ voucher.amount →
     voucher.amount ≤ channelData.deposit →
     DrainService.nonceTooLow (DrainService.loadChannelState channelData stored
        voucher.channelId now).lastVoucher voucher.nonce = false →
     DrainService.validateVoucher self (.ok channelData) (.error e) stored now
       voucher requiredAmount
         = { valid := false, error := some (jsErrorMessage e) }) := by
  constructor
  · rfl
  · intro h1 h2 h3 h4 h5
    simp [DrainService.validateVoucher, h1, h2, Nat.not_lt.mpr h3,
      Nat.not_lt.mpr h4, h5]

/-- Witness for C8's amended theorem at a concrete input: a signature-library
throw of `Error('sig lib down')` after all prior checks pass. -/
theorem C8_amended_throws_caught_witness :
    DrainService.validateVoucher 5 (.ok ⟨1, 5, 1000000, 99⟩)
      (.error (.errorObj "sig lib down")) none 0 ⟨77, 100, 1, 3⟩ 10
        = { valid := false, error := some "sig lib down" } :=
  (C8_amended_throws_caught 5 (.errorObj "sig lib down") (.ok true)
    ⟨1, 5, 1000000, 99⟩ none 0 ⟨77, 100, 1, 3⟩ 10).2
    (by decide) (by decide) (by decide) (by decide) (by decide)

/-! ### C5 : markClaimed stamps and is idempotent -/

/-- C5: `markClaimed(channelId, txHash)` rewrites exactly the unclaimed
vouchers of that channel — setting `claimed`, `claimedAt` and `claimTxHash` —
and leaves every other voucher (other channels, already-claimed) and all
channel records untouched; calling it a second time with any transaction
hash and timestamp changes nothing and raises no error. -/
theorem C5_markClaimed_stamps_exactly_and_idempotent (d : StorageData)
    (cid tx now tx2 now2 : Nat) :
    List.Forall₂ (fun v w =>
        w = if v.channelId = cid ∧ v.claimed = false then
              { v with claimed := true, claimedAt := some now, claimTxHash := some tx }
            else v)
      d.vouchers (VoucherStorage.markClaimed d cid tx now).vouchers ∧
    VoucherStorage.markClaimed (VoucherStorage.markClaimed d cid tx now) cid
      tx2 now2 = VoucherStorage.markClaimed d cid tx now ∧
    (VoucherStorage.markClaimed d cid tx now).channels = d.channels := by
  refine ⟨?_, ?_, rfl⟩
  · show List.Forall₂ _ d.vouchers (d.vouchers.map _)
    induction d.vouchers with
    | nil => exact List.Forall₂.nil
    | cons v rest ih => exact List.Forall₂.cons rfl ih
  · simp only [VoucherStorage.markClaimed, List.map_map]
    congr 1
    apply List.map_congr_left
    intro v _
    by_cases hv : v.channelId = cid ∧ v.claimed = false
    · simp [VoucherStorage.markVoucher, hv]
    · simp [VoucherStorage.markVoucher, hv]

/-! ### validateVoucher characterization helpers -/

/-- With the throw-free outcomes of the two external calls, `validateVoucher`
computes the reason of the first failing check of the spec's ordered list,
and accepts with `newTotal = amount` exactly when no check fails. -/
theorem validateVoucher_ok_spec (self : Nat) (channelData : ChainChannel)
    (sigOk : Bool) (stored : Option ChannelState) (now : Nat)
    (voucher : VoucherHeader) (requiredAmount : Nat) :
    (DrainService.validateVoucher self (.ok channelData) (.ok sigOk) stored now
      voucher requiredAmount).error
      = firstFailing (specCheckList self channelData
          (DrainService.loadChannelState channelData stored voucher.channelId now)
          sigOk voucher requiredAmount) ∧
    (DrainService.validateVoucher self (.ok channelData) (.ok sigOk) stored now
      voucher requiredAmount).valid
      = (firstFailing (specCheckList self channelData
          (DrainService.loadChannelState channelData stored voucher.channelId now)
          sigOk voucher requiredAmount)).isNone ∧
    (DrainService.validateVoucher self (.ok channelData) (.ok sigOk) stored now
      voucher requiredAmount).newTotal
      = (if (firstFailing (specCheckList self channelData
            (DrainService.loadChannelState channelData stored voucher.channelId now)
            sigOk voucher requiredAmount)).isNone
         then some voucher.amount else none) := by
  by_cases h1 : channelData.consumer = 0
  · simp [DrainService.validateVoucher, specCheckList, firstFailing, h1]
  · by_cases h2 : channelData.provider = self
    · by_cases h3 : voucher.amount <
        (DrainService.loadChannelState channelData stored voucher.channelId
          now).totalCharged + requiredAmount
      · simp [DrainService.validateVoucher, specCheckList, firstFailing, h1, h2, h3]
      · by_cases h4 : channelData.deposit < voucher.amount
        · simp [DrainService.validateVoucher, specCheckList, firstFailing,
            h1, h2, h3, h4]
        · by_cases h5 : DrainService.nonceTooLow
            (DrainService.loadChannelState channelData stored voucher.channelId
              now).lastVoucher voucher.nonce = true
          · simp [DrainService.validateVoucher, specCheckList, firstFailing,
              h1, h2, h3, h4, h5]
          · cases sigOk <;>
              simp [DrainService.validateVoucher, specCheckList, firstFailing,
                h1, h2, h3, h4, h5]
    · simp [DrainService.validateVoucher, specCheckList, firstFailing, h1, h2]

/-- Inversion of a successful validation: the accept branch was reached, so
every check passed, and the result carries the loaded channel snapshot and
`newTotal = amount`. -/
theorem validateVoucher_valid_inversion (self : Nat) (channelData : ChainChannel)
    (sigOk : Bool) (stored : Option ChannelState) (now : Nat)
    (voucher : VoucherHeader) (req : Nat)
    (h : (DrainService.validateVoucher self (.ok channelData) (.ok sigOk) stored
      now voucher req).valid = true) :
    DrainService.validateVoucher self (.ok channelData) (.ok sigOk) stored now
      voucher req
      = { valid := true,
          channel := some (DrainService.loadChannelState channelData stored
            voucher.channelId now),
          newTotal := some voucher.amount } ∧
    channelData.consumer ≠ 0 ∧ channelData.provider = self ∧
    (DrainService.loadChannelState channelData stored voucher.channelId
      now).totalCharged + req ≤ voucher.amount ∧
    voucher.amount ≤ channelData.deposit ∧
    DrainService.nonceTooLow (DrainService.loadChannelState channelData stored
      voucher.channelId now).lastVoucher voucher.nonce = false ∧
    sigOk = true := by
  by_cases h1 : channelData.consumer = 0
  · simp [DrainService.validateVoucher, h1] at h
  · by_cases h2 : channelData.provider = self
    · by_cases h3 : voucher.amount <
        (DrainService.loadChannelState channelData stored voucher.channelId
          now).totalCharged + req
      · simp [DrainService.validateVoucher, h1, h2, h3] at h
      · by_cases h4 : channelData.deposit < voucher.amount
        · simp [DrainService.validateVoucher, h1, h2, h3, h4] at h
        · by_cases h5 : DrainService.nonceTooLow
            (DrainService.loadChannelState channelData stored voucher.channelId
              now).lastVoucher voucher.nonce = true
          · simp [DrainService.validateVoucher, h1, h2, h3, h4, h5] at h
          · cases sigOk with
            | false => simp [DrainService.validateVoucher, h1, h2, h3, h4, h5] at h
            | true =>
                exact ⟨by simp [DrainService.validateVoucher, h1, h2, h3, h4, h5],
                  h1, h2, Nat.not_lt.mp h3, Nat.not_lt.mp h4,
                  by simpa using h5, rfl⟩
    · simp [DrainService.validateVoucher, h1, h2] at h

/-! ### C1 : validation applies the checks in the spec's order -/

/-- C1: with throw-free external calls, `validateVoucher` returns the reason
of the first failing check of the ordered list (channel_not_found,
wrong_provider, insufficient_funds, exceeds_deposit, invalid_nonce,
invalid_signature), where insufficient_funds triggers exactly when
`amount < totalCharged + requiredAmount`; it accepts with
`newTotal = amount` exactly when no check fails; and Scenario A (deposit
1000000, no prior voucher, valid signature, amount 100000, nonce 1,
requiredAmount 50000) is accepted with newTotal 100000. -/
theorem C1_validate_first_failing_check (self : Nat) (channelData : ChainChannel)
    (sigOk : Bool) (stored : Option ChannelState) (now : Nat)
    (voucher : VoucherHeader) (requiredAmount : Nat) :
    ((DrainService.validateVoucher self (.ok channelData) (.ok sigOk) stored now
      voucher requiredAmount).error
      = firstFailing (specCheckList self channelData
          (DrainService.loadChannelState channelData stored voucher.channelId now)
          sigOk voucher requiredAmount) ∧
    (DrainService.validateVoucher self (.ok channelData) (.ok sigOk) stored now
      voucher requiredAmount).valid
      = (firstFailing (specCheckList self channelData
          (DrainService.loadChannelState channelData stored voucher.channelId now)
          sigOk voucher requiredAmount)).isNone ∧
    (DrainService.validateVoucher self (.ok channelData) (.ok sigOk) stored now
      voucher requiredAmount).newTotal
      = (if (firstFailing (specCheckList self channelData
            (DrainService.loadChannelState channelData stored voucher.channelId now)
            sigOk voucher requiredAmount)).isNone
         then some voucher.amount else none)) ∧
    DrainService.validateVoucher 5 (.ok ⟨1, 5, 1000000, 3600⟩) (.ok true) none 0
      ⟨77, 100000, 1, 123⟩ 50000
      = { valid := true, error := none,
          channel := some ⟨77, 1, 1000000, 0, 3600, none, 0, 0⟩,
          newTotal := some 100000 } :=
  ⟨validateVoucher_ok_spec self channelData sigOk stored now voucher
    requiredAmount, by decide⟩

/-! ### loadChannelState / storeVoucher helper lemmas -/

theorem loadChannelState_deposit (cd : ChainChannel) (stored : Option ChannelState)
    (cid now : Nat) :
    (DrainService.loadChannelState cd stored cid now).deposit
      = match stored with
        | none => cd.deposit
        | some cs => cs.deposit := by
  cases stored with
  | none => rfl
  | some cs =>
      simp only [DrainService.loadChannelState]
      split_ifs <;> rfl

theorem loadChannelState_totalCharged (cd : ChainChannel)
    (stored : Option ChannelState) (cid now : Nat) :
    (DrainService.loadChannelState cd stored cid now).totalCharged
      = match stored with
        | none => 0
        | some cs => cs.totalCharged := by
  cases stored with
  | none => rfl
  | some cs =>
      simp only [DrainService.loadChannelState]
      split_ifs <;> rfl

theorem loadChannelState_lastVoucher (cd : ChainChannel)
    (stored : Option ChannelState) (cid now : Nat) :
    (DrainService.loadChannelState cd stored cid now).lastVoucher
      = match stored with
        | none => none
        | some cs => cs.lastVoucher := by
  cases stored with
  | none => rfl
  | some cs =>
      simp only [DrainService.loadChannelState]
      split_ifs <;> rfl

theorem storeVoucher_eq (d : StorageData) (voucher : VoucherHeader)
    (cs : ChannelState) (cost now : Nat) :
    DrainService.storeVoucher d voucher cs cost now
      = { vouchers := d.vouchers ++ [mkStoredVoucher voucher cs now],
          channels := aset d.channels voucher.channelId
            (commitChannel voucher cs cost now),
          totalEarned := d.totalEarned, totalClaimed := d.totalClaimed } := rfl

theorem storeVoucher_getChannel_self (d : StorageData) (voucher : VoucherHeader)
    (cs : ChannelState) (cost now : Nat) :
    VoucherStorage.getChannel (DrainService.storeVoucher d voucher cs cost now)
      voucher.channelId = some (commitChannel voucher cs cost now) := by
  rw [storeVoucher_eq]
  exact alookup_aset_self _ _ _

theorem storeVoucher_getChannel_ne (d : StorageData) (voucher : VoucherHeader)
    (cs : ChannelState) (cost now cid : Nat) (h : cid ≠ voucher.channelId) :
    VoucherStorage.getChannel (DrainService.storeVoucher d voucher cs cost now)
      cid = VoucherStorage.getChannel d cid := by
  rw [storeVoucher_eq]
  exact alookup_aset_ne _ _ _ _ h

/-! ### C2 : totalCharged bounded by deposit and monotone -/

/-- A request either leaves storage untouched (rejected) or commits the
accepted voucher via `storeVoucher` on the channel snapshot returned by the
validation, with the validation's guards available. -/
theorem processRequest_spec (self : Nat) (chain : Nat → ChainChannel)
    (d : StorageData) (r : Request) :
    processRequest self chain d r = (d, none) ∨
    (processRequest self chain d r
        = (DrainService.storeVoucher d r.voucher
            (DrainService.loadChannelState (chain r.voucher.channelId)
              (VoucherStorage.getChannel d r.voucher.channelId)
              r.voucher.channelId r.now)
            r.cost r.now,
           some (r.voucher.channelId, r.voucher)) ∧
      (DrainService.loadChannelState (chain r.voucher.channelId)
        (VoucherStorage.getChannel d r.voucher.channelId) r.voucher.channelId
        r.now).totalCharged + r.cost ≤ r.voucher.amount ∧
      r.voucher.amount ≤ (chain r.voucher.channelId).deposit ∧
      DrainService.nonceTooLow
        (DrainService.loadChannelState (chain r.voucher.channelId)
          (VoucherStorage.getChannel d r.voucher.channelId) r.voucher.channelId
          r.now).lastVoucher r.voucher.nonce = false) := by
  by_cases hv : (DrainService.validateVoucher self (.ok (chain r.voucher.channelId))
      (.ok r.sigOk) (VoucherStorage.getChannel d r.voucher.channelId) r.now
      r.voucher r.cost).valid = true
  · right
    obtain ⟨heq, _, _, hamt, hdep, hnonce, _⟩ :=
      validateVoucher_valid_inversion self (chain r.voucher.channelId) r.sigOk
        (VoucherStorage.getChannel d r.voucher.channelId) r.now r.voucher
        r.cost hv
    refine ⟨?_, hamt, hdep, hnonce⟩
    unfold processRequest
    rw [heq]
    rfl
  · left
    unfold processRequest
    simp only [Bool.not_eq_true] at hv
    simp [hv]

theorem runRequests_cons (self : Nat) (chain : Nat → ChainChannel)
    (start : StorageData × List (Nat × VoucherHeader)) (r : Request)
    (rest : List Request) :
    runRequests self chain start (r :: rest)
      = runRequests self chain
          (match processRequest self chain start.1 r with
           | (d, some ev) => (d, start.2 ++ [ev])
           | (d, none) => (d, start.2)) rest := rfl

theorem processRequest_channelInv (self : Nat) (chain : Nat → ChainChannel)
    (d : StorageData) (r : Request) (hInv : ChannelInv chain d) :
    ChannelInv chain (processRequest self chain d r).1 := by
  rcases processRequest_spec self chain d r with h | ⟨heq, hamt, hdep, _⟩
  · rw [h]
    exact hInv
  · rw [heq]
    intro e he
    rw [storeVoucher_eq] at he
    rcases mem_aset he with he' | he'
    · subst he'
      constructor
      · show (commitChannel _ _ _ _).deposit = _
        rw [show (commitChannel r.voucher _ r.cost r.now).deposit
              = (DrainService.loadChannelState (chain r.voucher.channelId)
                  (VoucherStorage.getChannel d r.voucher.channelId)
                  r.voucher.channelId r.now).deposit from rfl,
            loadChannelState_deposit]
        cases hst : VoucherStorage.getChannel d r.voucher.channelId with
        | none => rfl
        | some cs0 => exact (hInv _ (alookup_mem hst)).1
      · show (commitChannel _ _ _ _).totalCharged ≤ (commitChannel _ _ _ _).deposit
        have hdep2 : (commitChannel r.voucher
            (DrainService.loadChannelState (chain r.voucher.channelId)
              (VoucherStorage.getChannel d r.voucher.channelId)
              r.voucher.channelId r.now) r.cost r.now).deposit
            = (chain r.voucher.channelId).deposit := by
          rw [show (commitChannel r.voucher _ r.cost r.now).deposit
                = (DrainService.loadChannelState (chain r.voucher.channelId)
                    (VoucherStorage.getChannel d r.voucher.channelId)
                    r.voucher.channelId r.now).deposit from rfl,
              loadChannelState_deposit]
          cases hst : VoucherStorage.getChannel d r.voucher.channelId with
          | none => rfl
          | some cs0 => exact (hInv _ (alookup_mem hst)).1
        rw [hdep2]
        exact le_trans hamt hdep
    · exact hInv e he'

theorem processRequest_mono (self : Nat) (chain : Nat → ChainChannel)
    (d : StorageData) (r : Request) (cid : Nat) (cs : ChannelState)
    (h : VoucherStorage.getChannel d cid = some cs) :
    ∃ cs2, VoucherStorage.getChannel (processRequest self chain d r).1 cid
        = some cs2 ∧ cs.totalCharged ≤ cs2.totalCharged := by
  rcases processRequest_spec self chain d r with heq | ⟨heq, _, _, _⟩
  · rw [heq]
    exact ⟨cs, h, le_refl _⟩
  · rw [heq]
    by_cases hc : cid = r.voucher.channelId
    · subst hc
      refine ⟨_, storeVoucher_getChannel_self _ _ _ _ _, ?_⟩
      show cs.totalCharged ≤
        (DrainService.loadChannelState (chain r.voucher.channelId)
          (VoucherStorage.getChannel d r.voucher.channelId)
          r.voucher.channelId r.now).totalCharged + r.cost
      rw [loadChannelState_totalCharged, h]
      exact Nat.le_add_right _ _
    · exact ⟨cs, by rw [storeVoucher_getChannel_ne _ _ _ _ _ _ hc]; exact h,
        le_refl _⟩

theorem runRequests_channelInv (self : Nat) (chain : Nat → ChainChannel)
    (reqs : List Request) :
    ∀ d tr, ChannelInv chain d →
      ChannelInv chain (runRequests self chain (d, tr) reqs).1 := by
  induction reqs with
  | nil => intro d tr h; exact h
  | cons r rest ih =>
      intro d tr h
      rw [runRequests_cons]
      have hstep := processRequest_channelInv self chain d r h
      rcases hpr : processRequest self chain d r with ⟨d1, ev⟩
      rw [hpr] at hstep
      cases ev with
      | none => exact ih d1 tr hstep
      | some e => exact ih d1 (tr ++ [e]) hstep

theorem runRequests_mono (self : Nat) (chain : Nat → ChainChannel)
    (reqs : List Request) :
    ∀ d tr cid cs, VoucherStorage.getChannel d cid = some cs →
      ∃ cs2, VoucherStorage.getChannel
          (runRequests self chain (d, tr) reqs).1 cid = some cs2 ∧
        cs.totalCharged ≤ cs2.totalCharged := by
  induction reqs with
  | nil => intro d tr cid cs h; exact ⟨cs, h, le_refl _⟩
  | cons r rest ih =>
      intro d tr cid cs h
      rw [runRequests_cons]
      obtain ⟨cs1, h1, hle1⟩ := processRequest_mono self chain d r cid cs h
      rcases hpr : processRequest self chain d r with ⟨d1, ev⟩
      rw [hpr] at h1
      cases ev with
      | none =>
          obtain ⟨cs2, h2, hle2⟩ := ih d1 tr cid cs1 h1
          exact ⟨cs2, h2, le_trans hle1 hle2⟩
      | some e =>
          obtain ⟨cs2, h2, hle2⟩ := ih d1 (tr ++ [e]) cid cs1 h1
          exact ⟨cs2, h2, le_trans hle1 hle2⟩

/-- C2: across any sequence of two-phase rounds (each `storeVoucher` commit
preceded by a successful `validateVoucher` on the same voucher and cost),
every local channel record keeps `totalCharged ≤ deposit`, and a channel's
`totalCharged` never decreases. -/
theorem C2_totalCharged_bounded_and_monotone (self : Nat)
    (chain : Nat → ChainChannel) (d : StorageData) (reqs : List Request)
    (hInv : ChannelInv chain d) :
    ChannelInv chain (runRequests self chain (d, []) reqs).1 ∧
    ∀ cid cs, VoucherStorage.getChannel d cid = some cs →
      ∃ cs2, VoucherStorage.getChannel
          (runRequests self chain (d, []) reqs).1 cid = some cs2 ∧
        cs.totalCharged ≤ cs2.totalCharged :=
  ⟨runRequests_channelInv self chain reqs d [] hInv,
   fun cid cs h => runRequests_mono self chain reqs d [] cid cs h⟩

/-- Witness for C2 at a concrete input: the empty store satisfies the
invariant, and one accepted request keeps it. -/
theorem C2_totalCharged_bounded_and_monotone_witness :
    ChannelInv (fun _ => ⟨1, 5, 1000, 99⟩) emptyStorage ∧
    (ChannelInv (fun _ => ⟨1, 5, 1000, 99⟩)
        (runRequests 5 (fun _ => ⟨1, 5, 1000, 99⟩) (emptyStorage, [])
          [⟨⟨7, 100, 1, 11⟩, true, 10, 0⟩]).1 ∧
      ∀ cid cs, VoucherStorage.getChannel emptyStorage cid = some cs →
        ∃ cs2, VoucherStorage.getChannel
            (runRequests 5 (fun _ => ⟨1, 5, 1000, 99⟩) (emptyStorage, [])
              [⟨⟨7, 100, 1, 11⟩, true, 10, 0⟩]).1 cid = some cs2 ∧
          cs.totalCharged ≤ cs2.totalCharged) :=
  ⟨by intro e he; simp [emptyStorage] at he,
   C2_totalCharged_bounded_and_monotone 5 (fun _ => ⟨1, 5, 1000, 99⟩)
     emptyStorage [⟨⟨7, 100, 1, 11⟩, true, 10, 0⟩]
     (by intro e he; simp [emptyStorage] at he)⟩

/-! ### C3 : nonces strictly increase across accepted vouchers -/

theorem mem_of_getLastOpt {α : Type} {l : List α} {x : α}
    (h : x ∈ l.getLast?) : x ∈ l := by
  obtain ⟨hne, hx⟩ := List.mem_getLast?_eq_getLast h
  exact hx ▸ List.getLast_mem hne

theorem chain_lt_append_singleton {l : List Nat} {a : Nat}
    (h : List.Chain' (· < ·) l) (ha : ∀ x ∈ l, x < a) :
    List.Chain' (· < ·) (l ++ [a]) := by
  rw [List.chain'_append]
  refine ⟨h, List.chain'_singleton a, ?_⟩
  intro x hx y hy
  simp only [List.head?_cons, Option.mem_def, Option.some.injEq] at hy
  subst hy
  exact ha x (mem_of_getLastOpt hx)

theorem traceNonces_append (tr : List (Nat × VoucherHeader))
    (e : Nat × VoucherHeader) (cid : Nat) :
    traceNonces (tr ++ [e]) cid
      = traceNonces tr cid ++ (if e.1 = cid then [e.2.nonce] else []) := by
  simp only [traceNonces, List.filter_append, List.map_append]
  congr 1
  by_cases h : e.1 = cid <;> simp [h]

theorem processRequest_nonceInv (self : Nat) (chain : Nat → ChainChannel)
    (d : StorageData) (r : Request) (tr : List (Nat × VoucherHeader))
    (hInv : NonceInv d tr) :
    NonceInv (processRequest self chain d r).1
      (match (processRequest self chain d r).2 with
       | some ev => tr ++ [ev]
       | none => tr) := by
  rcases processRequest_spec self chain d r with heq | ⟨heq, _, _, hnonce⟩
  · rw [heq]
    exact hInv
  · rw [heq]
    intro cid
    by_cases hc : r.voucher.channelId = cid
    · subst hc
      have hlt : ∀ n ∈ traceNonces tr r.voucher.channelId, n < r.voucher.nonce := by
        intro n hn
        obtain ⟨cs, lv, hlook, hlv, hle⟩ := (hInv r.voucher.channelId).2 n hn
        have hlv2 : (DrainService.loadChannelState (chain r.voucher.channelId)
            (VoucherStorage.getChannel d r.voucher.channelId)
            r.voucher.channelId r.now).lastVoucher = some lv := by
          rw [loadChannelState_lastVoucher, hlook]
          exact hlv
        rw [hlv2] at hnonce
        simp only [DrainService.nonceTooLow, decide_eq_false_iff_not,
          Nat.not_le] at hnonce
        exact lt_of_le_of_lt hle hnonce
      constructor
      · rw [traceNonces_append, if_pos rfl]
        exact chain_lt_append_singleton (hInv r.voucher.channelId).1 hlt
      · intro n hn
        rw [traceNonces_append, if_pos rfl] at hn
        refine ⟨commitChannel r.voucher
            (DrainService.loadChannelState (chain r.voucher.channelId)
              (VoucherStorage.getChannel d r.voucher.channelId)
              r.voucher.channelId r.now) r.cost r.now,
          mkStoredVoucher r.voucher
            (DrainService.loadChannelState (chain r.voucher.channelId)
              (VoucherStorage.getChannel d r.voucher.channelId)
              r.voucher.channelId r.now) r.now,
          storeVoucher_getChannel_self _ _ _ _ _, rfl, ?_⟩
        show n ≤ r.voucher.nonce
        rcases List.mem_append.mp hn with hn | hn
        · exact le_of_lt (hlt n hn)
        · simp only [List.mem_singleton] at hn
          exact hn ▸ le_refl _
    · constructor
      · rw [traceNonces_append, if_neg hc, List.append_nil]
        exact (hInv cid).1
      · intro n hn
        rw [traceNonces_append, if_neg hc, List.append_nil] at hn
        obtain ⟨cs, lv, hlook, hlv, hle⟩ := (hInv cid).2 n hn
        refine ⟨cs, lv, ?_, hlv, hle⟩
        rw [storeVoucher_getChannel_ne _ _ _ _ _ _ (fun h => hc h.symm)]
        exact hlook

theorem runRequests_nonceInv (self : Nat) (chain : Nat → ChainChannel)
    (reqs : List Request) :
    ∀ d tr, NonceInv d tr →
      NonceInv (runRequests self chain (d, tr) reqs).1
        (runRequests self chain (d, tr) reqs).2 := by
  induction reqs with
  | nil => intro d tr h; exact h
  | cons r rest ih =>
      intro d tr h
      rw [runRequests_cons]
      have hstep := processRequest_nonceInv self chain d r tr h
      rcases hpr : processRequest self chain d r with ⟨d1, ev⟩
      rw [hpr] at hstep
      cases ev with
      | none => exact ih d1 tr hstep
      | some e => exact ih d1 (tr ++ [e]) hstep

/-- C3 counterexample: starting from an empty store, the vouchers
`{amount 100, nonce 1}` and `{amount 50, nonce 2}` on the same channel are
both accepted in sequence (cost 10 each, deposit 1000), and the accepted
amounts decrease from 100 to 50 — the accepted amounts are not
non-decreasing, contrary to the claim. -/
theorem C3_counterexample_amounts_decrease :
    ((runRequests 5 (fun _ => ⟨1, 5, 1000, 99⟩) (emptyStorage, [])
        [⟨⟨7, 100, 1, 11⟩, true, 10, 0⟩, ⟨⟨7, 50, 2, 12⟩, true, 10, 1⟩]).2.map
          fun e => e.1) = [7, 7] ∧
    ((runRequests 5 (fun _ => ⟨1, 5, 1000, 99⟩) (emptyStorage, [])
        [⟨⟨7, 100, 1, 11⟩, true, 10, 0⟩, ⟨⟨7, 50, 2, 12⟩, true, 10, 1⟩]).2.map
          fun e => e.2.amount) = [100, 50] ∧ (50 : Nat) < 100 :=
  ⟨by decide, by decide, by decide⟩

/-- C3 (amended): across any run of the two-phase protocol the accepted
nonces of each channel are strictly increasing; and a voucher whose nonce is
≤ the recorded last accepted nonce is rejected — with reason invalid_nonce
when the checks preceding the nonce check pass. The claim's further
assertion that accepted amounts are non-decreasing is false (see the
counterexample). -/
theorem C3_amended_nonces_strictly_increasing (self : Nat)
    (chain : Nat → ChainChannel) (d : StorageData) (reqs : List Request) :
    (∀ cid, List.Chain' (· < ·)
      (traceNonces (runRequests self chain (d, []) reqs).2 cid)) ∧
    (∀ (channelData : ChainChannel) (sigOk : Bool) (now : Nat)
       (voucher : VoucherHeader) (req : Nat) (cs : ChannelState)
       (lv : StoredVoucher),
      cs.lastVoucher = some lv → voucher.nonce ≤ lv.nonce →
      (DrainService.validateVoucher self (.ok channelData) (.ok sigOk)
        (some cs) now voucher req).valid = false ∧
      (channelData.consumer ≠ 0 → channelData.provider = self →
       cs.totalCharged + req ≤ voucher.amount →
       voucher.amount ≤ channelData.deposit →
       (DrainService.validateVoucher self (.ok channelData) (.ok sigOk)
         (some cs) now voucher req).error = some "invalid_nonce")) := by
  constructor
  · intro cid
    have h0 : NonceInv d [] := by
      intro cid2
      constructor
      · simp [traceNonces]
      · intro n hn
        simp [traceNonces] at hn
    exact ((runRequests_nonceInv self chain reqs d [] h0) cid).1
  · intro channelData sigOk now voucher req cs lv hlv hle
    have hload_lv : (DrainService.loadChannelState channelData (some cs)
        voucher.channelId now).lastVoucher = some lv := by
      rw [loadChannelState_lastVoucher]
      exact hlv
    have hload_tc : (DrainService.loadChannelState channelData (some cs)
        voucher.channelId now).totalCharged = cs.totalCharged :=
      loadChannelState_totalCharged _ _ _ _
    have hnt : DrainService.nonceTooLow
        (DrainService.loadChannelState channelData (some cs) voucher.channelId
          now).lastVoucher voucher.nonce = true := by
      rw [hload_lv]
      simp [DrainService.nonceTooLow, hle]
    constructor
    · cases hv : (DrainService.validateVoucher self (.ok channelData)
          (.ok sigOk) (some cs) now voucher req).valid with
      | false => rfl
      | true =>
          obtain ⟨_, _, _, _, _, hnonce, _⟩ :=
            validateVoucher_valid_inversion self channelData sigOk (some cs)
              now voucher req hv
          rw [hnonce] at hnt
          exact Bool.noConfusion hnt
    · intro h1 h2 h3 h4
      rw [(validateVoucher_ok_spec self channelData sigOk (some cs) now voucher
        req).1]
      have h3b : ¬(voucher.amount < (DrainService.loadChannelState channelData
          (some cs) voucher.channelId now).totalCharged + req) := by
        rw [hload_tc]
        exact Nat.not_lt.mpr h3
      simp [specCheckList, firstFailing, h1, h2, h3b, Nat.not_lt.mpr h4, hnt]

/-- Witness for C3's amended theorem at concrete inputs: a one-request run
whose accepted-nonce trace is strictly increasing, and a concrete stale-nonce
voucher that is rejected with invalid_nonce. -/
theorem C3_amended_nonces_strictly_increasing_witness :
    List.Chain' (· < ·)
      (traceNonces (runRequests 5 (fun _ => ⟨1, 5, 1000, 99⟩)
        (emptyStorage, []) [⟨⟨7, 100, 1, 11⟩, true, 10, 0⟩]).2 7) ∧
    (DrainService.validateVoucher 5 (.ok ⟨1, 5, 1000, 99⟩) (.ok true)
      (some ⟨7, 1, 1000, 10, 99, some ⟨7, 100, 1, 11, 1, 0, false, none, none⟩,
        0, 0⟩) 3 ⟨7, 150, 1, 12⟩ 10).valid = false ∧
    (DrainService.validateVoucher 5 (.ok ⟨1, 5, 1000, 99⟩) (.ok true)
      (some ⟨7, 1, 1000, 10, 99, some ⟨7, 100, 1, 11, 1, 0, false, none, none⟩,
        0, 0⟩) 3 ⟨7, 150, 1, 12⟩ 10).error = some "invalid_nonce" := by
  obtain ⟨htr, hrej⟩ := C3_amended_nonces_strictly_increasing 5
    (fun _ => ⟨1, 5, 1000, 99⟩) emptyStorage [⟨⟨7, 100, 1, 11⟩, true, 10, 0⟩]
  obtain ⟨hv, herr⟩ := hrej ⟨1, 5, 1000, 99⟩ true 3 ⟨7, 150, 1, 12⟩ 10
    ⟨7, 1, 1000, 10, 99, some ⟨7, 100, 1, 11, 1, 0, false, none, none⟩, 0, 0⟩
    ⟨7, 100, 1, 11, 1, 0, false, none, none⟩ rfl (by decide)
  exact ⟨htr 7, hv, herr (by decide) (by decide) (by decide) (by decide)⟩

/-! ### C4 : highest unclaimed voucher per channel -/

theorem alookup_append {κ α : Type} [DecidableEq κ] (l1 l2 : List (κ × α)) (k : κ) :
    alookup (l1 ++ l2) k = (alookup l1 k).or (alookup l2 k) := by
  induction l1 with
  | nil => simp [alookup]
  | cons e rest ih =>
      by_cases he : e.1 = k
      · simp [alookup, he]
      · simp [alookup, he, ih]

theorem maxAmount_append_single (l : List StoredVoucher) (v : StoredVoucher) :
    maxAmount (l ++ [v]) = max (maxAmount l) v.amount := by
  induction l with
  | nil => simp [maxAmount]
  | cons w rest ih =>
      simp only [List.cons_append, maxAmount, List.foldr_cons] at *
      rw [ih]
      omega

theorem le_maxAmount {l : List StoredVoucher} {w : StoredVoucher} (h : w ∈ l) :
    w.amount ≤ maxAmount l := by
  induction l with
  | nil => simp at h
  | cons x rest ih =>
      rcases List.mem_cons.mp h with h | h
      · subst h
        simp only [maxAmount, List.foldr_cons]
        omega
      · have := ih h
        simp only [maxAmount, List.foldr_cons] at *
        omega

theorem maxAmount_attained {l : List StoredVoucher} (h : l ≠ []) :
    ∃ w ∈ l, w.amount = maxAmount l := by
  induction l with
  | nil => exact absurd rfl h
  | cons x rest ih =>
      rcases Decidable.em (rest = []) with hrest | hrest
      · subst hrest
        exact ⟨x, List.mem_cons_self _ _, by simp [maxAmount]⟩
      · obtain ⟨w, hw, hwmax⟩ := ih hrest
        rcases Nat.le_total (maxAmount rest) x.amount with hle | hle
        · refine ⟨x, List.mem_cons_self _ _, ?_⟩
          simp only [maxAmount, List.foldr_cons] at *
          omega
        · refine ⟨w, List.mem_cons_of_mem _ hw, ?_⟩
          simp only [maxAmount, List.foldr_cons] at *
          omega

theorem firstMaxVoucher_eq_none {l : List StoredVoucher} :
    firstMaxVoucher l = none ↔ l = [] := by
  constructor
  · intro h
    by_contra hne
    obtain ⟨w, hw, hwmax⟩ := maxAmount_attained hne
    have : (l.find? fun v => v.amount = maxAmount l).isSome :=
      List.find?_isSome.mpr ⟨w, hw, by simp [hwmax]⟩
    rw [show (l.find? fun v => v.amount = maxAmount l) = firstMaxVoucher l
      from rfl, h] at this
    simp at this
  · intro h
    subst h
    rfl

theorem firstMaxVoucher_some {l : List StoredVoucher} {b : StoredVoucher}
    (h : firstMaxVoucher l = some b) :
    b ∈ l ∧ b.amount = maxAmount l := by
  refine ⟨List.mem_of_find?_eq_some h, ?_⟩
  have := List.find?_some h
  simpa using this

theorem firstMaxVoucher_append_single (l : List StoredVoucher) (v : StoredVoucher) :
    firstMaxVoucher (l ++ [v])
      = match firstMaxVoucher l with
        | none => some v
        | some b => if b.amount < v.amount then some v else some b := by
  cases hfm : firstMaxVoucher l with
  | none =>
      have hl : l = [] := firstMaxVoucher_eq_none.mp hfm
      subst hl
      simp [firstMaxVoucher, maxAmount, List.find?]
  | some b =>
      obtain ⟨hbmem, hbmax⟩ := firstMaxVoucher_some hfm
      by_cases hlt : b.amount < v.amount
      · have hmax : maxAmount (l ++ [v]) = v.amount := by
          rw [maxAmount_append_single]
          omega
        have hnone : (l.find? fun w => w.amount = maxAmount (l ++ [v])) = none := by
          rw [List.find?_eq_none]
          intro x hx
          have := le_maxAmount hx
          simp only [hmax, decide_eq_true_eq]
          omega
        simp only [firstMaxVoucher, List.find?_append, hnone, Option.none_or]
        simp [hmax, hlt]
      · have hmax : maxAmount (l ++ [v]) = maxAmount l := by
          rw [maxAmount_append_single]
          omega
        have hsome : (l.find? fun w => w.amount = maxAmount (l ++ [v])) = some b := by
          rw [hmax]
          exact hfm
        simp only [firstMaxVoucher, List.find?_append, hsome]
        simp [hlt, Option.or]

theorem getHighest_eq_foldl (d : StorageData) :
    VoucherStorage.getHighestVoucherPerChannel d
      = d.vouchers.foldl highestStep [] := rfl

theorem unclaimedIn_cons (v : StoredVoucher) (vs : List StoredVoucher) (cid : Nat) :
    unclaimedIn (v :: vs) cid
      = (if v.claimed = false ∧ v.channelId = cid then [v] else [])
          ++ unclaimedIn vs cid := by
  by_cases h : v.claimed = false ∧ v.channelId = cid <;>
    simp [unclaimedIn, List.filter_cons, h]

theorem highest_foldl_spec (vs : List StoredVoucher) :
    ∀ (acc : List (Nat × StoredVoucher)) (U : Nat → List StoredVoucher),
      (∀ cid, alookup acc cid = firstMaxVoucher (U cid)) →
      (acc.map Prod.fst).Nodup →
      (∀ cid, alookup (vs.foldl highestStep acc) cid
          = firstMaxVoucher (U cid ++ unclaimedIn vs cid)) ∧
      ((vs.foldl highestStep acc).map Prod.fst).Nodup := by
  induction vs with
  | nil =>
      intro acc U hacc hnd
      refine ⟨fun cid => ?_, hnd⟩
      simp only [List.foldl_nil, unclaimedIn, List.filter_nil, List.append_nil]
      exact hacc cid
  | cons v rest ih =>
      intro acc U hacc hnd
      rw [List.foldl_cons]
      by_cases hcl : v.claimed
      · have hstep : highestStep acc v = acc := by simp [highestStep, hcl]
        rw [hstep]
        obtain ⟨hmain, hmnd⟩ := ih acc U hacc hnd
        refine ⟨fun cid => ?_, hmnd⟩
        rw [hmain cid, unclaimedIn_cons]
        simp [hcl]
      · have hacc' : ∀ cid, alookup (highestStep acc v) cid
            = firstMaxVoucher (U cid ++ (if v.channelId = cid then [v] else [])) := by
          intro cid
          by_cases hc : v.channelId = cid
          · subst hc
            rw [if_pos rfl, firstMaxVoucher_append_single, ← hacc v.channelId]
            simp only [highestStep, if_neg hcl]
            cases hl : alookup acc v.channelId with
            | none =>
                simp only [alookup_append, hl, Option.none_or]
                simp [alookup]
            | some b =>
                by_cases hlt : b.amount < v.amount
                · simp [hlt, alookup_aset_self]
                · simp [hlt, hl]
          · rw [if_neg hc, List.append_nil, ← hacc cid]
            simp only [highestStep, if_neg hcl]
            cases hl : alookup acc v.channelId with
            | none =>
                rw [alookup_append]
                simp [alookup, hc]
            | some b =>
                by_cases hlt : b.amount < v.amount
                · simp only [if_pos hlt]
                  exact alookup_aset_ne _ _ _ _ (fun h => hc h.symm)
                · simp [hlt]
        · have hnd' : ((highestStep acc v).map Prod.fst).Nodup := by
            simp only [highestStep, if_neg hcl]
            cases hl : alookup acc v.channelId with
            | none =>
                have hnotin : v.channelId ∉ acc.map Prod.fst := alookup_eq_none hl
                simp [List.nodup_append, hnd, hnotin]
            | some b =>
                by_cases hlt : b.amount < v.amount
                · simp only [if_pos hlt]
                  have hmem : v.channelId ∈ acc.map Prod.fst :=
                    List.mem_map_of_mem Prod.fst (alookup_mem hl)
                  rw [keys_aset_of_mem _ hmem]
                  exact hnd
                · simp only [if_neg hlt]
                  exact hnd
          obtain ⟨hmain, hmnd⟩ := ih (highestStep acc v)
            (fun cid => U cid ++ (if v.channelId = cid then [v] else []))
            hacc' hnd'
          refine ⟨fun cid => ?_, hmnd⟩
          rw [hmain cid, unclaimedIn_cons]
          by_cases hc : v.channelId = cid <;>
            simp [hc, hcl, List.append_assoc]

/-- C4 counterexample: two unclaimed vouchers on channel 7 tie on the maximum
amount 100 with nonces 1 and 2 (stored in that order); the code returns the
stored-first voucher with nonce 1, while the claim demands the higher
nonce 2. -/
theorem C4_counterexample_tie_returns_lower_nonce :
    alookup (VoucherStorage.getHighestVoucherPerChannel
        ⟨[⟨7, 100, 1, 11, 1, 0, false, none, none⟩,
          ⟨7, 100, 2, 12, 1, 1, false, none, none⟩], [], 0, 0⟩) 7
      = some ⟨7, 100, 1, 11, 1, 0, false, none, none⟩ ∧
    (⟨7, 100, 2, 12, 1, 1, false, none, none⟩ : StoredVoucher) ∈
      unclaimedFor ⟨[⟨7, 100, 1, 11, 1, 0, false, none, none⟩,
        ⟨7, 100, 2, 12, 1, 1, false, none, none⟩], [], 0, 0⟩ 7 ∧
    (1 : Nat) < 2 :=
  ⟨by decide, by decide, by decide⟩

/-- C4 (amended): `getHighestVoucherPerChannel` has exactly one entry per
channel that has an unclaimed voucher (its keys are duplicate-free and a key
is present exactly when the channel has an unclaimed voucher); the entry is
the first unclaimed voucher of the channel, in storage order, whose amount
attains the maximum amount among the channel's unclaimed vouchers — so a tie
on the maximum amount is broken in favor of the earliest stored voucher, not
the higher nonce. -/
theorem C4_amended_highest_is_first_max (d : StorageData) (cid : Nat) :
    alookup (VoucherStorage.getHighestVoucherPerChannel d) cid
      = firstMaxVoucher (unclaimedFor d cid) ∧
    ((VoucherStorage.getHighestVoucherPerChannel d).map Prod.fst).Nodup ∧
    (alookup (VoucherStorage.getHighestVoucherPerChannel d) cid).isSome
      = !(unclaimedFor d cid).isEmpty := by
  obtain ⟨hmain, hnd⟩ := highest_foldl_spec d.vouchers []
    (fun _ => []) (fun _ => rfl) List.nodup_nil
  rw [getHighest_eq_foldl]
  have hcid := hmain cid
  rw [List.nil_append] at hcid
  refine ⟨hcid, hnd, ?_⟩
  rw [hcid]
  have hrw : unclaimedFor d cid = unclaimedIn d.vouchers cid := rfl
  cases hu : unclaimedIn d.vouchers cid with
  | nil =>
      rw [hrw, hu]
      rfl
  | cons w ws =>
      have hne : unclaimedIn d.vouchers cid ≠ [] := by
        rw [hu]
        simp
      cases hfm : firstMaxVoucher (unclaimedIn d.vouchers cid) with
      | none => exact absurd (firstMaxVoucher_eq_none.mp hfm) hne
      | some b =>
          rw [hu] at hfm
          rw [hrw, hu, hfm]
          rfl

/-- Standalone form of the C4 characterization, shared by other proofs. -/
theorem getHighest_alookup (d : StorageData) (cid : Nat) :
    alookup (VoucherStorage.getHighestVoucherPerChannel d) cid
      = firstMaxVoucher (unclaimedFor d cid) := by
  obtain ⟨hmain, _⟩ := highest_foldl_spec d.vouchers [] (fun _ => [])
    (fun _ => rfl) List.nodup_nil
  rw [getHighest_eq_foldl]
  have hcid := hmain cid
  rw [List.nil_append] at hcid
  exact hcid

/-- The key list of `getHighestVoucherPerChannel` is duplicate-free. -/
theorem getHighest_keys_nodup (d : StorageData) :
    ((VoucherStorage.getHighestVoucherPerChannel d).map Prod.fst).Nodup := by
  obtain ⟨_, hnd⟩ := highest_foldl_spec d.vouchers [] (fun _ => [])
    (fun _ => rfl) List.nodup_nil
  rw [getHighest_eq_foldl]
  exact hnd

/-- An entry of `getHighestVoucherPerChannel` is keyed by its voucher's
channel id and is unclaimed. -/
theorem getHighest_entry_shape (d : StorageData) (e : Nat × StoredVoucher)
    (h : e ∈ VoucherStorage.getHighestVoucherPerChannel d) :
    alookup (VoucherStorage.getHighestVoucherPerChannel d) e.1 = some e.2 ∧
    e.2.claimed = false ∧ e.2.channelId = e.1 := by
  have hlook := alookup_of_keys_nodup (getHighest_keys_nodup d) h
  refine ⟨hlook, ?_⟩
  rw [getHighest_alookup] at hlook
  obtain ⟨hmem, _⟩ := firstMaxVoucher_some hlook
  have := List.of_mem_filter hmem
  simpa [decide_eq_true_eq] using this

/-! ### C6 : claimExpiring eligibility -/

theorem claimStep_channels (chain : Nat → Nat → Nat → Nat → Option Nat)
    (nowMs : Nat) (acc : DrainService.ClaimRun) (cid : Nat) (v : StoredVoucher) :
    (DrainService.claimStep chain nowMs acc cid v).storage.channels
      = acc.storage.channels := by
  unfold DrainService.claimStep
  cases chain v.channelId v.amount v.nonce v.signature <;>
    simp [markClaimed_channels]

theorem claimStep_attempted (chain : Nat → Nat → Nat → Nat → Option Nat)
    (nowMs : Nat) (acc : DrainService.ClaimRun) (cid : Nat) (v : StoredVoucher) :
    (DrainService.claimStep chain nowMs acc cid v).attempted
      = acc.attempted ++ [(cid, v)] := by
  unfold DrainService.claimStep
  cases chain v.channelId v.amount v.nonce v.signature <;> rfl

theorem claimStep_txHashes (chain : Nat → Nat → Nat → Nat → Option Nat)
    (nowMs : Nat) (acc : DrainService.ClaimRun) (cid : Nat) (v : StoredVoucher) :
    (DrainService.claimStep chain nowMs acc cid v).txHashes
      = acc.txHashes
          ++ (chain v.channelId v.amount v.nonce v.signature).toList := by
  unfold DrainService.claimStep
  cases chain v.channelId v.amount v.nonce v.signature <;> simp

theorem expiringStep_channels (chain : Nat → Nat → Nat → Nat → Option Nat)
    (buffer now : Int) (nowMs : Nat) (acc : DrainService.ClaimRun) (e : Nat × StoredVoucher) :
    (DrainService.expiringStep chain buffer now nowMs acc e).storage.channels
      = acc.storage.channels := by
  unfold DrainService.expiringStep
  cases VoucherStorage.getChannel acc.storage e.1 with
  | none => rfl
  | some channel =>
      dsimp only
      split_ifs <;> first | rfl | exact claimStep_channels _ _ _ _ _

theorem expiringStep_attempted (chain : Nat → Nat → Nat → Nat → Option Nat)
    (buffer now : Int) (nowMs : Nat) (d : StorageData) (acc : DrainService.ClaimRun)
    (e : Nat × StoredVoucher) (h : acc.storage.channels = d.channels) :
    (DrainService.expiringStep chain buffer now nowMs acc e).attempted
      = acc.attempted
          ++ (if expiringEligible d buffer now e then [e] else []) := by
  unfold DrainService.expiringStep expiringEligible
  rw [show VoucherStorage.getChannel acc.storage e.1
        = VoucherStorage.getChannel d e.1 from by
      unfold VoucherStorage.getChannel
      rw [h]]
  cases hch : VoucherStorage.getChannel d e.1 with
  | none => simp
  | some channel =>
      dsimp only
      by_cases h1 : channel.expiry = 0
      · simp [h1]
      · by_cases h2 : buffer < (channel.expiry : Int) - now
        · simp [h1, h2, Int.not_le.mpr h2]
        · by_cases h3 : e.2.amount = 0
          · simp [h1, h2, h3]
          · rw [if_neg h1, if_neg h2, if_neg h3, claimStep_attempted]
            have : (channel.expiry : Int) - now ≤ buffer := Int.not_lt.mp h2
            simp [h1, this, Nat.pos_of_ne_zero h3]

theorem expiring_foldl_spec (chain : Nat → Nat → Nat → Nat → Option Nat)
    (buffer now : Int) (nowMs : Nat) (d : StorageData)
    (hs : List (Nat × StoredVoucher)) :
    ∀ acc : DrainService.ClaimRun, acc.storage.channels = d.channels →
      ((hs.foldl (DrainService.expiringStep chain buffer now nowMs)
          acc).attempted
        = acc.attempted ++ hs.filter (expiringEligible d buffer now)) ∧
      (hs.foldl (DrainService.expiringStep chain buffer now nowMs)
          acc).storage.channels = d.channels := by
  induction hs with
  | nil =>
      intro acc h
      simpa using h
  | cons e rest ih =>
      intro acc h
      rw [List.foldl_cons]
      have hch : (DrainService.expiringStep chain buffer now nowMs acc
          e).storage.channels = d.channels :=
        (expiringStep_channels _ _ _ _ _ _).trans h
      obtain ⟨h1, h2⟩ := ih _ hch
      refine ⟨?_, h2⟩
      rw [h1, expiringStep_attempted _ _ _ _ d _ _ h, List.filter_cons]
      by_cases he : expiringEligible d buffer now e <;>
        simp [he, List.append_assoc]

/-- C6: `claimExpiring(bufferSeconds)` attempts the on-chain claim exactly
for the channels whose highest unclaimed voucher exists and whose local
channel record has a set expiry with `expiry - now ≤ bufferSeconds` and a
positive voucher amount — the claim threshold plays no role (it is not even
an input of `claimExpiring`). Scenario D: with two channels holding vouchers
of amount 5 (below a claim threshold of 1000, as `claimPayments` shows by
skipping both), the channel expiring in 1800 s is claimed under a 3600 s
buffer while the channel expiring in 7200 s is skipped. -/
theorem C6_claimExpiring_selects_expiring_channels
    (chain : Nat → Nat → Nat → Nat → Option Nat) (buffer now : Int)
    (nowMs : Nat) (d : StorageData) :
    ((DrainService.claimExpiring chain buffer now nowMs d).attempted
      = (VoucherStorage.getHighestVoucherPerChannel d).filter
          (expiringEligible d buffer now)) ∧
    (DrainService.claimExpiring (fun c _ _ _ => some (c + 100)) 3600 1000000 777
        ⟨[⟨1, 5, 1, 11, 9, 0, false, none, none⟩,
          ⟨2, 5, 1, 12, 9, 0, false, none, none⟩],
         [(1, ⟨1, 9, 1000, 5, 1001800, none, 0, 0⟩),
          (2, ⟨2, 9, 1000, 5, 1007200, none, 0, 0⟩)], 0, 0⟩).txHashes
      = [101] ∧
    ((DrainService.claimExpiring (fun c _ _ _ => some (c + 100)) 3600 1000000 777
        ⟨[⟨1, 5, 1, 11, 9, 0, false, none, none⟩,
          ⟨2, 5, 1, 12, 9, 0, false, none, none⟩],
         [(1, ⟨1, 9, 1000, 5, 1001800, none, 0, 0⟩),
          (2, ⟨2, 9, 1000, 5, 1007200, none, 0, 0⟩)], 0, 0⟩).attempted.map
      Prod.fst) = [1] ∧
    (DrainService.claimPayments (fun c _ _ _ => some (c + 100)) 1000 false 777
        ⟨[⟨1, 5, 1, 11, 9, 0, false, none, none⟩,
          ⟨2, 5, 1, 12, 9, 0, false, none, none⟩],
         [(1, ⟨1, 9, 1000, 5, 1001800, none, 0, 0⟩),
          (2, ⟨2, 9, 1000, 5, 1007200, none, 0, 0⟩)], 0, 0⟩).txHashes
      = [] := by
  refine ⟨?_, by decide, by decide, by decide⟩
  obtain ⟨h1, _⟩ := expiring_foldl_spec chain buffer now nowMs d
    (VoucherStorage.getHighestVoucherPerChannel d)
    { txHashes := [], storage := d, attempted := [] } rfl
  simpa [DrainService.claimExpiring] using h1

/-! ### C7 : claimPayments per-channel failure isolation -/

theorem paymentsStep_eq (chain : Nat → Nat → Nat → Nat → Option Nat)
    (threshold : Nat) (forceAll : Bool) (nowMs : Nat)
    (acc : DrainService.ClaimRun) (e : Nat × StoredVoucher) :
    DrainService.paymentsStep chain threshold forceAll nowMs acc e
      = if paymentsEligible threshold forceAll e then
          DrainService.claimStep chain nowMs acc e.1 e.2
        else acc := by
  unfold DrainService.paymentsStep paymentsEligible
  by_cases h : forceAll = false ∧ e.2.amount < threshold <;> simp [h]

theorem paymentsStep_hit (chain : Nat → Nat → Nat → Nat → Option Nat)
    (threshold : Nat) (forceAll : Bool) (nowMs : Nat)
    (acc : DrainService.ClaimRun) (e : Nat × StoredVoucher) (h : Nat)
    (helig : paymentsEligible threshold forceAll e = true)
    (hsucc : chain e.2.channelId e.2.amount e.2.nonce e.2.signature = some h) :
    (DrainService.paymentsStep chain threshold forceAll nowMs acc e).storage
      = VoucherStorage.markClaimed acc.storage e.1 h nowMs := by
  rw [paymentsStep_eq, if_pos helig]
  unfold DrainService.claimStep
  rw [hsucc]

theorem paymentsStep_storage_cases (chain : Nat → Nat → Nat → Nat → Option Nat)
    (threshold : Nat) (forceAll : Bool) (nowMs : Nat)
    (acc : DrainService.ClaimRun) (e : Nat × StoredVoucher) :
    (DrainService.paymentsStep chain threshold forceAll nowMs acc e).storage
        = acc.storage ∨
    ∃ h, chain e.2.channelId e.2.amount e.2.nonce e.2.signature = some h ∧
      (DrainService.paymentsStep chain threshold forceAll nowMs acc e).storage
        = VoucherStorage.markClaimed acc.storage e.1 h nowMs := by
  rw [paymentsStep_eq]
  by_cases he : paymentsEligible threshold forceAll e
  · rw [if_pos he]
    unfold DrainService.claimStep
    cases hc : chain e.2.channelId e.2.amount e.2.nonce e.2.signature with
    | none => exact Or.inl rfl
    | some h => exact Or.inr ⟨h, rfl, rfl⟩
  · rw [if_neg he]
    exact Or.inl rfl

theorem payments_foldl_tx (chain : Nat → Nat → Nat → Nat → Option Nat)
    (threshold : Nat) (forceAll : Bool) (nowMs : Nat)
    (hs : List (Nat × StoredVoucher)) :
    ∀ acc : DrainService.ClaimRun,
      (hs.foldl (DrainService.paymentsStep chain threshold forceAll nowMs)
          acc).txHashes
        = acc.txHashes
            ++ (hs.filter (paymentsEligible threshold forceAll)).filterMap
                (fun e => chain e.2.channelId e.2.amount e.2.nonce e.2.signature) := by
  induction hs with
  | nil =>
      intro acc
      simp
  | cons e rest ih =>
      intro acc
      rw [List.foldl_cons, paymentsStep_eq, List.filter_cons]
      by_cases he : paymentsEligible threshold forceAll e
      · rw [if_pos he, if_pos he, ih, claimStep_txHashes]
        cases hc : chain e.2.channelId e.2.amount e.2.nonce e.2.signature <;>
          simp [hc, List.append_assoc]
      · rw [if_neg he, if_neg he, ih]

theorem unclaimedIn_map_markVoucher (vs : List StoredVoucher)
    (cid tx now c2 : Nat) (h : c2 ≠ cid) :
    unclaimedIn (vs.map (VoucherStorage.markVoucher cid tx now)) c2
      = unclaimedIn vs c2 := by
  induction vs with
  | nil => rfl
  | cons v rest ih =>
      rw [List.map_cons, unclaimedIn_cons, unclaimedIn_cons, ih]
      congr 1
      by_cases hv : v.channelId = cid ∧ v.claimed = false
      · have hm : VoucherStorage.markVoucher cid tx now v
            = { v with
                  claimed := true
                  claimedAt := some now
                  claimTxHash := some tx } := by
          simp [VoucherStorage.markVoucher, hv]
        rw [hm]
        simp [hv.1, Ne.symm h]
      · have hm : VoucherStorage.markVoucher cid tx now v = v := by
          simp [VoucherStorage.markVoucher, hv]
        rw [hm]

theorem unclaimedIn_markClaimed_ne (d : StorageData) (cid tx now c2 : Nat)
    (h : c2 ≠ cid) :
    unclaimedIn (VoucherStorage.markClaimed d cid tx now).vouchers c2
      = unclaimedIn d.vouchers c2 :=
  unclaimedIn_map_markVoucher d.vouchers cid tx now c2 h

theorem markClaimed_all_claimed (d : StorageData) (cid tx now : Nat) :
    ∀ w ∈ (VoucherStorage.markClaimed d cid tx now).vouchers,
      w.channelId = cid → w.claimed = true := by
  intro w hw hcid
  obtain ⟨v, hv, hveq⟩ := List.mem_map.mp hw
  subst hveq
  by_cases h : v.channelId = cid ∧ v.claimed = false
  · simp [VoucherStorage.markVoucher, h]
  · have hm : VoucherStorage.markVoucher cid tx now v = v := by
      simp [VoucherStorage.markVoucher, h]
    rw [hm] at hcid ⊢
    cases hcl : v.claimed with
    | true => rfl
    | false => exact absurd ⟨hcid, hcl⟩ h

theorem markVoucher_of_claimed (cid tx now : Nat) (v : StoredVoucher)
    (h : v.claimed = true) :
    VoucherStorage.markVoucher cid tx now v = v := by
  simp [VoucherStorage.markVoucher, h]

theorem markClaimed_preserves_allClaimed (d : StorageData) (c cid tx now : Nat)
    (h : ∀ w ∈ d.vouchers, w.channelId = c → w.claimed = true) :
    ∀ w ∈ (VoucherStorage.markClaimed d cid tx now).vouchers,
      w.channelId = c → w.claimed = true := by
  intro w hw hcid
  obtain ⟨v, hv, hveq⟩ := List.mem_map.mp hw
  subst hveq
  by_cases hc2 : v.channelId = cid ∧ v.claimed = false
  · simp [VoucherStorage.markVoucher, hc2]
  · have hm : VoucherStorage.markVoucher cid tx now v = v := by
      simp [VoucherStorage.markVoucher, hc2]
    rw [hm] at hcid ⊢
    exact h v hv hcid

theorem payments_foldl_channels (chain : Nat → Nat → Nat → Nat → Option Nat)
    (threshold : Nat) (forceAll : Bool) (nowMs : Nat)
    (hs : List (Nat × StoredVoucher)) :
    ∀ acc : DrainService.ClaimRun,
      (hs.foldl (DrainService.paymentsStep chain threshold forceAll nowMs)
          acc).storage.channels = acc.storage.channels := by
  induction hs with
  | nil => intro acc; rfl
  | cons e rest ih =>
      intro acc
      rw [List.foldl_cons, ih]
      rcases paymentsStep_storage_cases chain threshold forceAll nowMs acc e
        with hst | ⟨h, _, hst⟩
      · rw [hst]
      · rw [hst, markClaimed_channels]

theorem payments_foldl_unclaimed_pres (chain : Nat → Nat → Nat → Nat → Option Nat)
    (threshold : Nat) (forceAll : Bool) (nowMs : Nat) (c : Nat) :
    ∀ (hs : List (Nat × StoredVoucher)),
      (∀ e ∈ hs, e.1 = c →
        chain e.2.channelId e.2.amount e.2.nonce e.2.signature = none) →
      ∀ acc : DrainService.ClaimRun,
        unclaimedIn ((hs.foldl
            (DrainService.paymentsStep chain threshold forceAll nowMs)
            acc).storage).vouchers c
          = unclaimedIn acc.storage.vouchers c := by
  intro hs
  induction hs with
  | nil => intro _ acc; rfl
  | cons e rest ih =>
      intro hno acc
      rw [List.foldl_cons, ih (fun e2 he2 => hno e2 (List.mem_cons_of_mem _ he2))]
      rcases paymentsStep_storage_cases chain threshold forceAll nowMs acc e
        with hst | ⟨h, hc, hst⟩
      · rw [hst]
      · rw [hst]
        by_cases hec : e.1 = c
        · rw [hno e (List.mem_cons_self _ _) hec] at hc
          exact Option.noConfusion hc
        · exact unclaimedIn_markClaimed_ne _ _ _ _ _ (fun hq => hec hq.symm)

theorem payments_foldl_preserves_allClaimed
    (chain : Nat → Nat → Nat → Nat → Option Nat) (threshold : Nat)
    (forceAll : Bool) (nowMs : Nat) (c : Nat)
    (hs : List (Nat × StoredVoucher)) :
    ∀ acc : DrainService.ClaimRun,
      (∀ w ∈ acc.storage.vouchers, w.channelId = c → w.claimed = true) →
      ∀ w ∈ (hs.foldl (DrainService.paymentsStep chain threshold forceAll nowMs)
          acc).storage.vouchers, w.channelId = c → w.claimed = true := by
  induction hs with
  | nil => intro acc h; exact h
  | cons e rest ih =>
      intro acc h
      rw [List.foldl_cons]
      refine ih _ ?_
      rcases paymentsStep_storage_cases chain threshold forceAll nowMs acc e
        with hst | ⟨h2, _, hst⟩
      · rw [hst]
        exact h
      · rw [hst]
        exact markClaimed_preserves_allClaimed _ _ _ _ _ h

theorem payments_foldl_hit (chain : Nat → Nat → Nat → Nat → Option Nat)
    (threshold : Nat) (forceAll : Bool) (nowMs : Nat) (c : Nat)
    (v : StoredVoucher) (h : Nat)
    (helig : paymentsEligible threshold forceAll (c, v) = true)
    (hsucc : chain v.channelId v.amount v.nonce v.signature = some h) :
    ∀ (hs : List (Nat × StoredVoucher)), (c, v) ∈ hs →
      ∀ acc : DrainService.ClaimRun,
        ∀ w ∈ (hs.foldl (DrainService.paymentsStep chain threshold forceAll
            nowMs) acc).storage.vouchers, w.channelId = c → w.claimed = true := by
  intro hs
  induction hs with
  | nil => intro hmem; simp at hmem
  | cons e rest ih =>
      intro hmem acc
      rw [List.foldl_cons]
      rcases List.mem_cons.mp hmem with heq | hmem2
      · refine payments_foldl_preserves_allClaimed chain threshold forceAll
          nowMs c rest _ ?_
        rw [← heq] at *
        rw [paymentsStep_hit chain threshold forceAll nowMs acc (c, v) h
          helig hsucc]
        exact markClaimed_all_claimed _ _ _ _
      · exact ih hmem2 _

theorem highest_same_key (d : StorageData) {e e2 : Nat × StoredVoucher}
    (he : e ∈ VoucherStorage.getHighestVoucherPerChannel d)
    (he2 : e2 ∈ VoucherStorage.getHighestVoucherPerChannel d)
    (hk : e2.1 = e.1) : e2 = e := by
  have h1 := alookup_of_keys_nodup (getHighest_keys_nodup d) he
  have h2 := alookup_of_keys_nodup (getHighest_keys_nodup d) he2
  rw [hk, h1] at h2
  have : e.2 = e2.2 := Option.some.inj h2
  cases e
  cases e2
  simp only at hk this
  simp [hk, this]

/-- C7: `claimPayments` returns exactly the transaction ids of the
successful claims, in candidate order (an on-chain failure is caught and the
loop continues with the next channel — the batch never aborts and nothing is
raised to the caller); a channel whose claim fails keeps its unclaimed
vouchers untouched and is selected again by the next
`getHighestVoucherPerChannel` scan with the same candidate voucher; a
channel whose claim succeeds has all its vouchers marked claimed. -/
theorem C7_claimPayments_per_channel_isolation
    (chain : Nat → Nat → Nat → Nat → Option Nat) (threshold : Nat)
    (forceAll : Bool) (nowMs : Nat) (d : StorageData) :
    ((DrainService.claimPayments chain threshold forceAll nowMs d).txHashes
      = ((VoucherStorage.getHighestVoucherPerChannel d).filter
          (paymentsEligible threshold forceAll)).filterMap
            (fun e => chain e.2.channelId e.2.amount e.2.nonce e.2.signature)) ∧
    ((DrainService.claimPayments chain threshold forceAll nowMs
        d).storage.channels = d.channels) ∧
    (∀ e ∈ VoucherStorage.getHighestVoucherPerChannel d,
      chain e.2.channelId e.2.amount e.2.nonce e.2.signature = none →
      unclaimedFor (DrainService.claimPayments chain threshold forceAll nowMs
          d).storage e.1 = unclaimedFor d e.1 ∧
      alookup (VoucherStorage.getHighestVoucherPerChannel
          (DrainService.claimPayments chain threshold forceAll nowMs
            d).storage) e.1 = some e.2) ∧
    (∀ e ∈ VoucherStorage.getHighestVoucherPerChannel d, ∀ h,
      paymentsEligible threshold forceAll e = true →
      chain e.2.channelId e.2.amount e.2.nonce e.2.signature = some h →
      ∀ w ∈ (DrainService.claimPayments chain threshold forceAll nowMs
          d).storage.vouchers, w.channelId = e.1 → w.claimed = true) := by
  refine ⟨?_, ?_, ?_, ?_⟩
  · unfold DrainService.claimPayments
    rw [payments_foldl_tx]
    rfl
  · unfold DrainService.claimPayments
    rw [payments_foldl_channels]
  · intro e he hfail
    have hno : ∀ e2 ∈ VoucherStorage.getHighestVoucherPerChannel d,
        e2.1 = e.1 →
        chain e2.2.channelId e2.2.amount e2.2.nonce e2.2.signature = none := by
      intro e2 he2 hk
      rw [highest_same_key d he he2 hk]
      exact hfail
    have hpres : unclaimedIn ((DrainService.claimPayments chain threshold
        forceAll nowMs d).storage).vouchers e.1 = unclaimedIn d.vouchers e.1 := by
      unfold DrainService.claimPayments
      exact payments_foldl_unclaimed_pres chain threshold forceAll nowMs e.1
        (VoucherStorage.getHighestVoucherPerChannel d) hno _
    refine ⟨hpres, ?_⟩
    rw [getHighest_alookup]
    show firstMaxVoucher (unclaimedIn _ e.1) = some e.2
    rw [hpres]
    have := alookup_of_keys_nodup (getHighest_keys_nodup d) he
    rw [getHighest_alookup] at this
    exact this
  · intro e he h helig hsucc
    unfold DrainService.claimPayments
    exact payments_foldl_hit chain threshold forceAll nowMs e.1 e.2 h
      helig hsucc (VoucherStorage.getHighestVoucherPerChannel d) he _

/-- Witness for C7 at a concrete input: two candidate channels, the claim on
channel 1 throws while channel 2 succeeds with transaction id 102; the batch
returns exactly [102], channel 1's voucher stays unclaimed and remains the
claim candidate, and channel 2's voucher is marked claimed. -/
theorem C7_claimPayments_per_channel_isolation_witness :
    (DrainService.claimPayments
        (fun c _ _ _ => if c = 1 then none else some (c + 100)) 10 false 777
        ⟨[⟨1, 50, 1, 11, 9, 0, false, none, none⟩,
          ⟨2, 60, 1, 12, 9, 0, false, none, none⟩], [], 0, 0⟩).txHashes
      = [102] ∧
    unclaimedFor (DrainService.claimPayments
        (fun c _ _ _ => if c = 1 then none else some (c + 100)) 10 false 777
        ⟨[⟨1, 50, 1, 11, 9, 0, false, none, none⟩,
          ⟨2, 60, 1, 12, 9, 0, false, none, none⟩], [], 0, 0⟩).storage 1
      = unclaimedFor ⟨[⟨1, 50, 1, 11, 9, 0, false, none, none⟩,
          ⟨2, 60, 1, 12, 9, 0, false, none, none⟩], [], 0, 0⟩ 1 ∧
    alookup (VoucherStorage.getHighestVoucherPerChannel
        (DrainService.claimPayments
          (fun c _ _ _ => if c = 1 then none else some (c + 100)) 10 false 777
          ⟨[⟨1, 50, 1, 11, 9, 0, false, none, none⟩,
            ⟨2, 60, 1, 12, 9, 0, false, none, none⟩], [], 0, 0⟩).storage) 1
      = some ⟨1, 50, 1, 11, 9, 0, false, none, none⟩ ∧
    (⟨2, 60, 1, 12, 9, 0, true, some 777, some 102⟩ : StoredVoucher).claimed
      = true := by
  obtain ⟨h1, h2, h3, h4⟩ := C7_claimPayments_per_channel_isolation
    (fun c _ _ _ => if c = 1 then none else some (c + 100)) 10 false 777
    ⟨[⟨1, 50, 1, 11, 9, 0, false, none, none⟩,
      ⟨2, 60, 1, 12, 9, 0, false, none, none⟩], [], 0, 0⟩
  obtain ⟨hp, hl⟩ := h3 (1, ⟨1, 50, 1, 11, 9, 0, false, none, none⟩)
    (by decide) (by decide)
  refine ⟨by rw [h1]; decide, hp, hl, ?_⟩
  exact h4 (2, ⟨2, 60, 1, 12, 9, 0, false, none, none⟩) (by decide) 102
    (by decide) (by decide)
    ⟨2, 60, 1, 12, 9, 0, true, some 777, some 102⟩ (by decide) (by decide)

end Drain
